import Mathlib

/-!
Verification development for the madness-engine tournament forecaster.

This file shallowly embeds the parts of the TypeScript source that the
pending claims are about:

* `src/core/constants.ts` / `src/core/types.ts` — data model (rounds, teams,
  bracket slots, live-game states).
* `src/engine/bracket-propagator.ts` — `createRng`, `simulateFullBracket`,
  `aggregateBracketResults`.
* `src/bracket/bracket-state.ts` — `BracketSimState.setWinner` and friends.
* `src/bracket/bracket-builder.ts` — `buildBracket`.
* `src/engine/probability-model.ts` — the probability pipeline.
* `src/modes/mode-blender.ts` — composite category / confidence tag.
* `src/engine/live-state-blender.ts` — `blend` and `lockResult`.

Modelling conventions:

* JavaScript `number` is modelled as `ℝ` (ideal real arithmetic) wherever the
  source does floating-point arithmetic; quantities that the source only ever
  treats as integers (counts, seeds, simulation indices, RNG seeds) are
  modelled as `ℕ` / `ℤ`.
* The 32-bit integer coercions (`| 0`, `>>> 0`, `<<`, `^`) inside the RNG are
  modelled on the unsigned 32-bit views of the four state words, as `ℕ`
  arithmetic with explicit `% 2 ^ 32`.  Signed/unsigned interpretation is
  irrelevant there: every operation involved commutes with `% 2 ^ 32`.
* JavaScript `Map` / `Record` objects are modelled either as insertion-ordered
  association lists (where the source iterates their entries) or as total
  functions with default value (where the source only ever reads single keys
  with an `?? 0` style default).
* Optional object fields become `Option`; JS truthiness tests on string-valued
  fields (`s.team1Id && ...`) are modelled as `Option.isSome` (team/slot ids
  are non-empty strings).
-/

namespace Madness

/-- `Round` from `src/core/types.ts`. -/
inductive Round where
  | firstFour
  | roundOf64
  | roundOf32
  | sweetSixteen
  | eliteEight
  | finalFour
  | championship
deriving DecidableEq, Repr

open Round

/-- `ROUNDS_IN_ORDER` from `src/core/constants.ts`; note that it starts at the
round of 64 and does not contain the first-four round. -/
def ROUNDS_IN_ORDER : List Round :=
  [roundOf64, roundOf32, sweetSixteen, eliteEight, finalFour, championship]

/-- `TeamMetrics` from `src/core/types.ts` (all fields are JS numbers). -/
structure TeamMetrics where
  adjOffensiveEfficiency : ℝ
  adjDefensiveEfficiency : ℝ
  adjTempo : ℝ
  strengthOfSchedule : ℝ
  nonConferenceSOS : ℝ
  effectiveFGPct : ℝ
  threePointRate : ℝ
  threePointPct : ℝ
  freeThrowRate : ℝ
  freeThrowPct : ℝ
  offensiveReboundPct : ℝ
  defensiveReboundPct : ℝ
  turnoverPct : ℝ
  stealPct : ℝ
  averageHeight : ℝ
  benchMinutesPct : ℝ
  experienceRating : ℝ
  wins : ℝ
  losses : ℝ
  conferenceWins : ℝ
  conferenceLosses : ℝ
  last10Wins : ℝ
  last10Losses : ℝ
  winStreak : ℝ

/-- `Team` from `src/core/types.ts`.  The seed is an integer in the source's
use (`1..16`); regions, conferences and tournament types are strings.  The
optional `mascot` / `coaching` profiles are never read by the embedded code
paths and are omitted. -/
structure Team where
  id : String
  name : String
  shortName : String
  seed : ℤ
  region : String
  conference : String
  tournamentType : String
  metrics : TeamMetrics

/-- Live game status union from `src/core/types.ts`. -/
inductive GameStatus where
  | preGame
  | inProgress
  | halftime
  | final
deriving DecidableEq, Repr

/-- `LiveGameState` from `src/core/types.ts`, restricted to the fields that the
embedded code paths (probability blending and the live-state blender) read.
Scores and clock values are JS numbers, modelled as `ℝ`. -/
structure LiveGameState where
  gameId : String
  homeTeamId : String
  awayTeamId : String
  round : Round
  homeScore : ℝ
  awayScore : ℝ
  period : ℤ
  timeRemainingSeconds : ℝ
  status : GameStatus

/-- `BracketSlot` from `src/bracket/types.ts`. -/
structure BracketSlot where
  slotId : String
  round : Round
  region : String
  team1Id : Option String := none
  team2Id : Option String := none
  winnerId : Option String := none
  liveGame : Option LiveGameState := none
  nextSlotId : Option String := none

/-- `SerializedBracket` from `src/bracket/types.ts`. -/
structure SerializedBracket where
  tournamentType : String
  year : ℤ
  slots : List BracketSlot

/-- `MetricWeights` (`src/modes/types.ts`) is a string-indexed record of
numbers; `computeBaseWinProbability` iterates `Object.entries(weights)`, so it
is modelled as an insertion-ordered association list. -/
def MetricWeights := List (String × ℝ)

/-- `VarianceConfig` from `src/modes/types.ts`.  The partial per-round
multiplier map is modelled as `Round → Option ℝ` (reads use `?? 1.0`). -/
structure VarianceConfig where
  baseVariance : ℝ
  upsetMultiplier : ℝ
  liveStateWeight : ℝ
  roundVarianceMultipliers : Round → Option ℝ
  seedGapSensitivity : ℝ

/-- `SimulationContext` from `src/modes/types.ts`. -/
structure SimulationContext where
  round : Round
  region : String
  tournamentType : String
  gamesPlayedByTeam1 : ℕ
  gamesPlayedByTeam2 : ℕ

/-- `ModeCategory` from `src/modes/types.ts`. -/
inductive ModeCategory where
  | research
  | entertainment
  | hybrid
deriving DecidableEq, Repr

/-- `ConfidenceTag` from `src/modes/types.ts`. -/
inductive ConfidenceTag where
  | statisticallyValidated
  | experimental
  | whimsical
deriving DecidableEq, Repr

/-- `SimulationMode` from `src/modes/types.ts`, parametrised by the type `σ` of
the opaque per-simulation `ModeState`.  The interface methods are modelled as
pure values/functions (the mode contract requires them to be deterministic;
claim C1 assumes exactly this).  `onGameComplete` mutates the opaque state in
the source and is modelled as returning the updated state. -/
structure SimulationMode (σ : Type) where
  id : String
  name : String
  description : String
  category : ModeCategory
  confidenceTag : ConfidenceTag
  getMetricWeights : MetricWeights
  getVarianceConfig : VarianceConfig
  adjustProbability : ℝ → Team → Team → SimulationContext → ℝ
  initializeSimState : Option (Unit → σ) := none
  onGameComplete : Option (Team → Team → Round → σ → σ) := none

/-! ## Seeded RNG (`createRng`, `src/engine/bracket-propagator.ts` lines 92-113)

The four state words are kept as their unsigned 32-bit views (`ℕ` values
`< 2 ^ 32`).  All JS operations used (`+`, `*`, `<<`, `^`, `|`, `>>>`, `| 0`)
act on the 32-bit pattern, and multiplication/addition commute with
`% 2 ^ 32`, so the unsigned view is faithful to the source's mixed
signed/unsigned arithmetic. -/

/-- The unsigned 32-bit view of a JS `ToInt32`/`ToUint32` coercion. -/
def toUint32 (n : ℤ) : ℕ := (n % 4294967296).toNat

/-- 32-bit left-rotation, as used by `(x << n) | (x >>> (32 - n))`. -/
def rotl32 (x n : ℕ) : ℕ := (x * 2 ^ n) % 4294967296 + x / 2 ^ (32 - n)

/-- RNG state: the four `xoshiro128**`-style words `s0..s3` (unsigned views). -/
structure RngState where
  s0 : ℕ
  s1 : ℕ
  s2 : ℕ
  s3 : ℕ
deriving DecidableEq, Repr

/-- Seed initialisation of `createRng(seed)`:
`s0 = seed | 0`, then three LCG steps `x * 1664525 + 1013904223 | 0`.
Note the source derives `s1` from the *original* `seed`, not from `s0`;
modulo `2 ^ 32` the two agree. -/
def createRng (seed : ℤ) : RngState :=
  let s0 := toUint32 seed
  let s1 := toUint32 (seed * 1664525 + 1013904223)
  let s2 := (s1 * 1664525 + 1013904223) % 4294967296
  let s3 := (s2 * 1664525 + 1013904223) % 4294967296
  ⟨s0, s1, s2, s3⟩

/-- One step of the returned closure of `createRng`: produces the raw 32-bit
output word `r >>> 0` and the next state.  Mirrors the statement order of the
source (the `^=` updates read the already-updated words). -/
def rngNextRaw (st : RngState) : ℕ × RngState :=
  let t := (st.s1 * 2 ^ 9) % 4294967296
  let r0 := (st.s1 * 5) % 4294967296
  let r1 := rotl32 r0 7
  let r := (r1 * 9) % 4294967296
  let s2a := st.s2 ^^^ st.s0
  let s3a := st.s3 ^^^ st.s1
  let s1a := st.s1 ^^^ s2a
  let s0a := st.s0 ^^^ s3a
  let s2b := s2a ^^^ t
  let s3b := rotl32 s3a 11
  (r, ⟨s0a, s1a, s2b, s3b⟩)

/-- The closure's return value `(r >>> 0) / 4294967296 ∈ [0, 1)`, together with
the advanced state. -/
noncomputable def rngNext (st : RngState) : ℝ × RngState :=
  let p := rngNextRaw st
  ((p.1 : ℝ) / 4294967296, p.2)

/-! ## Probability model (`src/engine/probability-model.ts`) -/

/-- `sigmoid(x) = 1 / (1 + exp(-x))`. -/
noncomputable def sigmoid (x : ℝ) : ℝ := 1 / (1 + Real.exp (-x))

/-- `computeMomentumScore` (lines 9-13).  The JS guard
`last10Wins + last10Losses || 1` yields 1 when the sum is 0. -/
noncomputable def computeMomentumScore (m : TeamMetrics) : ℝ :=
  let denom := if m.last10Wins + m.last10Losses = 0 then 1 else m.last10Wins + m.last10Losses
  let last10WinPct := m.last10Wins / denom
  let streakBonus := min (m.winStreak * 0.03) 0.15
  (last10WinPct - 0.5) * 2 + streakBonus

/-- `getMetricValue` (lines 19-38): maps a `MetricWeights` key to the
corresponding team metric; unknown keys yield 0. -/
noncomputable def getMetricValue (team : Team) (key : String) : ℝ :=
  let m := team.metrics
  if key = "adjOffensiveEfficiency" then m.adjOffensiveEfficiency
  else if key = "adjDefensiveEfficiency" then m.adjDefensiveEfficiency
  else if key = "adjTempo" then m.adjTempo
  else if key = "strengthOfSchedule" then m.strengthOfSchedule
  else if key = "effectiveFGPct" then m.effectiveFGPct
  else if key = "threePointRate" then m.threePointRate
  else if key = "threePointPct" then m.threePointPct
  else if key = "freeThrowRate" then m.freeThrowRate
  else if key = "freeThrowPct" then m.freeThrowPct
  else if key = "offensiveReboundPct" then m.offensiveReboundPct
  else if key = "defensiveReboundPct" then m.defensiveReboundPct
  else if key = "turnoverPct" then m.turnoverPct
  else if key = "experienceRating" then m.experienceRating
  else if key = "momentumScore" then computeMomentumScore m
  else 0

/-- The `LOWER_IS_BETTER` key set (line 44). -/
def LOWER_IS_BETTER (key : String) : Bool :=
  key = "adjDefensiveEfficiency" || key = "turnoverPct"

/-- The `NORMALIZATION` record (lines 50-65); reads use `?? 1`. -/
def NORMALIZATION (key : String) : Option ℝ :=
  if key = "adjOffensiveEfficiency" then some 8.0
  else if key = "adjDefensiveEfficiency" then some 8.0
  else if key = "adjTempo" then some 4.0
  else if key = "strengthOfSchedule" then some 4.0
  else if key = "effectiveFGPct" then some 0.035
  else if key = "threePointRate" then some 0.06
  else if key = "threePointPct" then some 0.035
  else if key = "freeThrowRate" then some 0.08
  else if key = "freeThrowPct" then some 0.06
  else if key = "offensiveReboundPct" then some 0.04
  else if key = "defensiveReboundPct" then some 0.04
  else if key = "turnoverPct" then some 0.03
  else if key = "experienceRating" then some 0.6
  else if key = "momentumScore" then some 0.5
  else none

/-- One `Object.entries(weights)` loop iteration of
`computeBaseWinProbability` (lines 86-99), accumulating the logit. -/
noncomputable def logitStep (team1 team2 : Team) (acc : ℝ) (kv : String × ℝ) : ℝ :=
  let key := kv.1
  let weight := kv.2
  if weight = 0 then acc
  else
    let v1 := getMetricValue team1 key
    let v2 := getMetricValue team2 key
    let norm := (NORMALIZATION key).getD 1
    let diff0 := (v1 - v2) / norm
    let diff := if LOWER_IS_BETTER key then -diff0 else diff0
    acc + weight * diff

/-- `computeBaseWinProbability` (lines 79-105). -/
noncomputable def computeBaseWinProbability (team1 team2 : Team) (weights : MetricWeights) : ℝ :=
  let logit := weights.foldl (logitStep team1 team2) 0
  let scaleFactor := 0.25
  sigmoid (logit * scaleFactor)

/-- `applySeedGapAdjustment` (lines 112-128). -/
noncomputable def applySeedGapAdjustment (baseProbability : ℝ) (team1Seed team2Seed : ℤ)
    (seedGapSensitivity : ℝ) : ℝ :=
  if seedGapSensitivity = 0 ∨ team1Seed = team2Seed then baseProbability
  else
    let seedDiff : ℝ := (team2Seed : ℝ) - (team1Seed : ℝ)
    let seedImpliedProb := sigmoid (seedDiff * 0.18)
    let pullStrength := 0.15 * seedGapSensitivity
    baseProbability * (1 - pullStrength) + seedImpliedProb * pullStrength

/-- `GAME_LENGTH_SECONDS` from `src/core/constants.ts`. -/
def GAME_LENGTH_SECONDS : ℝ := 40 * 60

/-- `normalCDF` (lines 184-199): the Abramowitz–Stegun 7.1.26 approximation. -/
noncomputable def normalCDF (x : ℝ) : ℝ :=
  let a1 := 0.254829592
  let a2 := -0.284496736
  let a3 := 1.421413741
  let a4 := -1.453152027
  let a5 := 1.061405429
  let p := 0.3275911
  let sign : ℝ := if x < 0 then -1 else 1
  let x := |x| / Real.sqrt 2
  let t := 1.0 / (1.0 + p * x)
  let y := 1.0 - (((((a5 * t + a4) * t) + a3) * t + a2) * t + a1) * t * Real.exp (-x * x)
  0.5 * (1.0 + sign * y)

/-- `computeLiveAdjustedProbability` (lines 139-178). -/
noncomputable def computeLiveAdjustedProbability (pregameProbability : ℝ)
    (liveState : LiveGameState) (homeTeamIsTeam1 : Bool) (gamma : ℝ) : ℝ :=
  if liveState.status = GameStatus.preGame then pregameProbability
  else if liveState.status = GameStatus.final then
    let team1Score := if homeTeamIsTeam1 then liveState.homeScore else liveState.awayScore
    let team2Score := if homeTeamIsTeam1 then liveState.awayScore else liveState.homeScore
    if team1Score > team2Score then 1.0 else if team1Score < team2Score then 0.0 else 0.5
  else
    let totalTime :=
      if liveState.period ≤ 2 then GAME_LENGTH_SECONDS
      else GAME_LENGTH_SECONDS + ((liveState.period : ℝ) - 2) * 300
    let elapsed := totalTime - liveState.timeRemainingSeconds
    let elapsedFraction := max 0 (min 1 (elapsed / totalTime))
    let alpha := elapsedFraction ^ (gamma : ℝ)
    let team1Score := if homeTeamIsTeam1 then liveState.homeScore else liveState.awayScore
    let team2Score := if homeTeamIsTeam1 then liveState.awayScore else liveState.homeScore
    let scoreDiff := team1Score - team2Score
    let remainingPossessions := max 1 (liveState.timeRemainingSeconds / GAME_LENGTH_SECONDS * 70)
    let expectedStdDev := Real.sqrt remainingPossessions * 2.5
    let liveProb := normalCDF (scoreDiff / expectedStdDev)
    alpha * liveProb + (1 - alpha) * pregameProbability

/-- A bound on the resampling loops in `gaussianRandom` (`while (u === 0)`),
which almost surely finish within two draws; the unbounded source loop is
modelled with a generous fuel bound, taking the final draw as-is if the fuel is
ever exhausted. -/
def RESAMPLE_FUEL : ℕ := 4294967296

/-- The `while (u === 0) u = rng();` resampling loop of `gaussianRandom`. -/
noncomputable def drawNonzeroUniform : ℕ → RngState → ℝ × RngState
  | 0, st => rngNext st
  | n + 1, st =>
    let p := rngNext st
    if p.1 = 0 then drawNonzeroUniform n p.2 else p

/-- `gaussianRandom` (lines 230-235): Box–Muller over two nonzero uniforms. -/
noncomputable def gaussianRandom (st : RngState) : ℝ × RngState :=
  let pu := drawNonzeroUniform RESAMPLE_FUEL st
  let pv := drawNonzeroUniform RESAMPLE_FUEL pu.2
  (Real.sqrt (-2.0 * Real.log pu.1) * Real.cos (2.0 * Real.pi * pv.1), pv.2)

/-- `sampleOutcome` (lines 205-225): returns whether team 1 wins this run,
together with the advanced RNG state (the source consumes one Gaussian, then
one uniform). -/
noncomputable def sampleOutcome (team1WinProb : ℝ) (varianceConfig : VarianceConfig)
    (round : Round) (st : RngState) : Bool × RngState :=
  let roundMult := (varianceConfig.roundVarianceMultipliers round).getD 1.0
  let variance := varianceConfig.baseVariance * roundMult
  let logitP := Real.log (team1WinProb / (1 - team1WinProb + 1e-10) + 1e-10)
  let pg := gaussianRandom st
  let noise := pg.1 * variance * 4
  let noisyProb := sigmoid (logitP + noise)
  let finalProb := noisyProb * (1 / varianceConfig.upsetMultiplier)
    + 0.5 * (1 - 1 / varianceConfig.upsetMultiplier)
  let pu := rngNext pg.2
  (decide (pu.1 < max 0.001 (min 0.999 finalProb)), pu.2)

/-! ## Bracket state (`src/bracket/bracket-state.ts`)

`BracketSimState` holds a deep copy of the bracket's slots in a `Map` plus a
by-round grouping, both in insertion order; it is modelled as the plain slot
list in construction order.  `Map` iteration order is insertion order, so
`getSlotsForRound` is a filter of that list. -/

/-- `getSlot` (`this.slots.get(slotId)`).  Slot ids are unique in every
well-formed bracket, so first-match lookup agrees with the `Map`. -/
def getSlot (slots : List BracketSlot) (slotId : String) : Option BracketSlot :=
  slots.find? (fun s => s.slotId == slotId)

/-- The readiness test `s.team1Id && s.team2Id && !s.winnerId` (slot/team ids
are non-empty strings, so JS truthiness is `Option.isSome`). -/
def slotReady (s : BracketSlot) : Bool :=
  s.team1Id.isSome && s.team2Id.isSome && s.winnerId.isNone

/-- `getReadyGamesForRound` (lines 75-79). -/
def getReadyGamesForRound (slots : List BracketSlot) (round : Round) : List BracketSlot :=
  (slots.filter (fun s => s.round == round)).filter slotReady

/-- The mutation `slot.winnerId = winnerId`. -/
def withWinner (winnerId : String) (s : BracketSlot) : BracketSlot :=
  { s with winnerId := some winnerId }

/-- The mutation `nextSlot.team1Id = winnerId`. -/
def withTeam1 (winnerId : String) (s : BracketSlot) : BracketSlot :=
  { s with team1Id := some winnerId }

/-- The mutation `nextSlot.team2Id = winnerId`. -/
def withTeam2 (winnerId : String) (s : BracketSlot) : BracketSlot :=
  { s with team2Id := some winnerId }

/-- In-place mutation of the slot object bearing the given id: the JS code
mutates the object, which is aliased by every collection holding it, so in the
list model the entry with that id is replaced by its mutation. -/
def updateSlot (slots : List BracketSlot) (slotId : String) (f : BracketSlot → BracketSlot) :
    List BracketSlot :=
  slots.map fun s => if s.slotId == slotId then f s else s

/-- `setWinner` (lines 40-57): set the winner on the slot, then advance the
winner into the next slot — `team1Id` if it is still empty, else `team2Id`.
The source throws on an unknown slot id; the embedded call sites only pass
ids of existing slots, and the unknown-id case is mapped to a no-op. -/
def setWinner (slots : List BracketSlot) (slotId winnerId : String) : List BracketSlot :=
  match getSlot slots slotId with
  | none => slots
  | some slot =>
    let slots1 := updateSlot slots slotId (withWinner winnerId)
    match slot.nextSlotId with
    | none => slots1
    | some nid =>
      match getSlot slots1 nid with
      | none => slots1
      | some nextSlot =>
        if nextSlot.team1Id.isNone then updateSlot slots1 nid (withTeam1 winnerId)
        else updateSlot slots1 nid (withTeam2 winnerId)

/-- `getChampion` (lines 84-87): the winner of the slot with id
`"championship"`. -/
def getChampion (slots : List BracketSlot) : Option String :=
  (getSlot slots "championship").bind (fun s => s.winnerId)

/-! ## Bracket propagator (`src/engine/bracket-propagator.ts` lines 119-215) -/

/-- The `teamMap` built by `simulateFullBracket` (`Map.set` overwrites, so the
last team with a given id wins). -/
def teamMapGet (teams : List Team) (id : String) : Option Team :=
  teams.reverse.find? (fun t => t.id == id)

/-- Association-list read of a JS string-keyed `Record` entry. -/
def recordGet (l : List (String × ℕ)) (k : String) : Option ℕ :=
  (l.find? (fun p => p.1 == k)).map (fun p => p.2)

/-- Association-list write of a JS string-keyed `Record` entry: overwrite the
existing key in place, else append (insertion order). -/
def recordSet (l : List (String × ℕ)) (k : String) (v : ℕ) : List (String × ℕ) :=
  if l.any (fun p => p.1 == k) then l.map (fun p => if p.1 == k then (k, v) else p)
  else l ++ [(k, v)]

/-- `roundCounts[id][round]++`.  The nested `Record` is modelled as a total
function defaulting to 0: no embedded code path iterates its keys, and the
incremented keys are provably the initialised ones. -/
def bumpRound (rc : String → Round → ℕ) (id : String) (round : Round) :
    String → Round → ℕ :=
  fun t r => if t = id ∧ r = round then rc t r + 1 else rc t r

/-- `gamesPlayed[id] = (gamesPlayed[id] ?? 0) + 1`. -/
def bumpGamesPlayed (gp : String → Option ℕ) (id : String) : String → Option ℕ :=
  fun t => if t = id then some ((gp id).getD 0 + 1) else gp t

/-- `championshipCounts[c] = (championshipCounts[c] ?? 0) + 1`. -/
def bumpChampionship (cc : List (String × ℕ)) (id : String) : List (String × ℕ) :=
  recordSet cc id ((recordGet cc id).getD 0 + 1)

/-- The `championshipCounts` zero-initialisation loop (lines 133-139). -/
def initChampionshipCounts (teams : List Team) : List (String × ℕ) :=
  teams.foldl (fun cc t => recordSet cc t.id 0) []

/-- `CONFIG.LIVE_STATE_GAMMA` (`src/config.ts`): environment-configurable with
default `0.7`; the embedded engine uses the default. -/
def CONFIG_LIVE_STATE_GAMMA : ℝ := 0.7

/-- The mutable context of one Monte Carlo run inside `simulateFullBracket`:
the per-run bracket state, RNG and `gamesPlayed` map, together with the
longer-lived `roundCounts` matrix and the mode state (which the source
creates once, before the run loop). -/
structure GameAccum (σ : Type) where
  state : List BracketSlot
  rng : RngState
  gamesPlayed : String → Option ℕ
  roundCounts : String → Round → ℕ
  modeState : Option σ

/-- The body of the per-game loop (lines 154-204).  The captured `game`
objects alias the state's slot objects, so field reads inside the body see
earlier mutations; this is modelled by re-reading the slot by id from the
current state. -/
noncomputable def simGame {σ : Type} (bracket : SerializedBracket) (teams : List Team)
    (mode : SimulationMode σ) (round : Round) (acc : GameAccum σ) (slotId : String) :
    GameAccum σ :=
  match getSlot acc.state slotId with
  | none => acc
  | some game =>
    match game.team1Id, game.team2Id with
    | some t1id, some t2id =>
      match teamMapGet teams t1id, teamMapGet teams t2id with
      | some team1, some team2 =>
        let rc := bumpRound (bumpRound acc.roundCounts team1.id round) team2.id round
        let context : SimulationContext :=
          { round := round
            region := game.region
            tournamentType := bracket.tournamentType
            gamesPlayedByTeam1 := (acc.gamesPlayed team1.id).getD 0
            gamesPlayedByTeam2 := (acc.gamesPlayed team2.id).getD 0 }
        let weights := mode.getMetricWeights
        let variance := mode.getVarianceConfig
        let prob0 := computeBaseWinProbability team1 team2 weights
        let prob1 := applySeedGapAdjustment prob0 team1.seed team2.seed variance.seedGapSensitivity
        let prob2 := mode.adjustProbability prob1 team1 team2 context
        let prob3 :=
          match game.liveGame with
          | some lg =>
            if lg.status ≠ GameStatus.preGame then
              computeLiveAdjustedProbability prob2 lg (lg.homeTeamId == team1.id)
                CONFIG_LIVE_STATE_GAMMA
            else prob2
          | none => prob2
        let prob := max 0.001 (min 0.999 prob3)
        let so := sampleOutcome prob variance round acc.rng
        let winnerId := if so.1 then team1.id else team2.id
        let loserId := if so.1 then team2.id else team1.id
        let state1 := setWinner acc.state game.slotId winnerId
        let gp1 := bumpGamesPlayed (bumpGamesPlayed acc.gamesPlayed winnerId) loserId
        let ms1 :=
          match mode.onGameComplete, acc.modeState with
          | some f, some st =>
            -- `teamMap.get(winnerId)!`: the lookup provably succeeds and
            -- returns `team1` or `team2`; the `getD` default is never used.
            let winner := (teamMapGet teams winnerId).getD team1
            let loser := (teamMapGet teams loserId).getD team2
            some (f winner loser round st)
          | _, _ => acc.modeState
        { state := state1, rng := so.2, gamesPlayed := gp1, roundCounts := rc, modeState := ms1 }
      | _, _ => acc
    | _, _ => acc

/-- One round of a Monte Carlo run (lines 151-205): capture the ready games of
the round, then play each in order. -/
noncomputable def simRound {σ : Type} (bracket : SerializedBracket) (teams : List Team)
    (mode : SimulationMode σ) (acc : GameAccum σ) (round : Round) : GameAccum σ :=
  let games := getReadyGamesForRound acc.state round
  (games.map (fun g => g.slotId)).foldl (simGame bracket teams mode round) acc

/-- The accumulator of the outer `for (let sim = 0; ...)` loop: count matrices
plus the mode state, which the source threads through every run. -/
structure SimAccum (σ : Type) where
  roundCounts : String → Round → ℕ
  championshipCounts : List (String × ℕ)
  modeState : Option σ

/-- One Monte Carlo run (lines 143-212): seed the per-run RNG (from
`baseSeed + sim` when a base seed is supplied, else `Date.now() + sim`,
modelled by the ambient `now`), build a fresh bracket state and `gamesPlayed`
map, walk the rounds in order, then record the champion. -/
noncomputable def simStep {σ : Type} (bracket : SerializedBracket) (teams : List Team)
    (mode : SimulationMode σ) (baseSeed : Option ℤ) (now : ℤ)
    (acc : SimAccum σ) (sim : ℕ) : SimAccum σ :=
  let seed : ℤ :=
    match baseSeed with
    | some s => s + sim
    | none => now + sim
  let ga0 : GameAccum σ :=
    { state := bracket.slots
      rng := createRng seed
      gamesPlayed := fun _ => none
      roundCounts := acc.roundCounts
      modeState := acc.modeState }
  let ga := ROUNDS_IN_ORDER.foldl (simRound bracket teams mode) ga0
  let cc :=
    match getChampion ga.state with
    | some c => bumpChampionship acc.championshipCounts c
    | none => acc.championshipCounts
  { roundCounts := ga.roundCounts, championshipCounts := cc, modeState := ga.modeState }

/-- `BracketSimResult` from `src/engine/types.ts`. -/
structure BracketSimResult where
  roundCounts : String → Round → ℕ
  championshipCounts : List (String × ℕ)
  totalSims : ℕ

/-- `simulateFullBracket` (lines 119-215).  `baseSeed` is the optional
explicit seed; `now` models the ambient `Date.now()` value read when no base
seed is supplied.  `mode.initializeSimState?.()` is invoked once, before the
run loop, and the resulting state is threaded through all runs. -/
noncomputable def simulateFullBracket {σ : Type} (bracket : SerializedBracket)
    (teams : List Team) (mode : SimulationMode σ) (simulationCount : ℕ)
    (baseSeed : Option ℤ) (now : ℤ) : BracketSimResult :=
  let init : SimAccum σ :=
    { roundCounts := fun _ _ => 0
      championshipCounts := initChampionshipCounts teams
      modeState := mode.initializeSimState.map (fun f => f ()) }
  let final := (List.range simulationCount).foldl (simStep bracket teams mode baseSeed now) init
  { roundCounts := final.roundCounts
    championshipCounts := final.championshipCounts
    totalSims := simulationCount }

/-! ## Aggregator (`src/engine/bracket-propagator.ts` lines 220-276)

Only the outputs that the claims refer to are embedded: the per-team results
(round probabilities, championship probability, expected wins) and the
most-likely-champion selection.  `timestamp`, `mostLikelyFinalFour`,
`biggestProjectedUpset` and `volatilityIndex` are not referenced by any
claim and are omitted. -/

/-- `TeamTournamentResult` from `src/core/types.ts` (embedded fields). -/
structure TeamTournamentResult where
  teamId : String
  teamName : String
  seed : ℤ
  region : String
  roundProbabilities : Round → ℝ
  championshipProbability : ℝ
  expectedWins : ℝ

/-- A single `roundProbs[r] = v` record assignment. -/
def setRoundProb (rp : Round → ℝ) (r : Round) (v : ℝ) : Round → ℝ :=
  fun x => if x = r then v else rp x

/-- The `roundProbs` construction (lines 234-240): start from `{}`, assign 1
to `first-four` and `round-of-64`, then assign `counts[round] / totalSims`
for every round of `ROUNDS_IN_ORDER` — including `round-of-64`, whose
conventional 1 is thereby overwritten. -/
noncomputable def roundProbsFor (counts : Round → ℕ) (totalSims : ℕ) : Round → ℝ :=
  let rp0 : Round → ℝ := fun _ => 0
  let rp1 := setRoundProb rp0 Round.firstFour 1
  let rp2 := setRoundProb rp1 Round.roundOf64 1
  ROUNDS_IN_ORDER.foldl
    (fun rp round => setRoundProb rp round ((counts round : ℝ) / (totalSims : ℝ))) rp2

/-- The expected-wins loop (lines 243-247): sum the advancement
probabilities over `ROUNDS_IN_ORDER`, skipping `round-of-64`. -/
noncomputable def expectedWinsFor (roundProbs : Round → ℝ) : ℝ :=
  ROUNDS_IN_ORDER.foldl
    (fun acc round => if round = Round.roundOf64 then acc else acc + roundProbs round) 0

/-- The per-team body of the aggregation loop (lines 230-258). -/
noncomputable def teamResultFor (simResult : BracketSimResult) (team : Team) :
    TeamTournamentResult :=
  let counts := simResult.roundCounts team.id
  let champCount := (recordGet simResult.championshipCounts team.id).getD 0
  let roundProbs := roundProbsFor counts simResult.totalSims
  { teamId := team.id
    teamName := team.name
    seed := team.seed
    region := team.region
    roundProbabilities := roundProbs
    championshipProbability := (champCount : ℝ) / (simResult.totalSims : ℝ)
    expectedWins := expectedWinsFor roundProbs }

/-- The most-likely-champion selection loop (lines 268-276): iterate
`Object.entries(championshipCounts)` in insertion order, keeping the entry
whose count strictly exceeds the running maximum (initially `('', 0)`). -/
def mostLikelyChampionOf (championshipCounts : List (String × ℕ)) : String :=
  (championshipCounts.foldl
    (fun best p => if p.2 > best.2 then (p.1, p.2) else best) ("", 0)).1

/-- `TournamentSimulationResult` (embedded fields). -/
structure TournamentSimulationResult where
  modeId : String
  modeName : String
  tournamentType : String
  simulationCount : ℕ
  teamResults : List TeamTournamentResult
  mostLikelyChampion : String

/-- `aggregateBracketResults` (lines 220-326), restricted to the embedded
outputs.  `teamResults` is a `Map` built by inserting each roster team in
order, modelled as the list of per-team results in roster order. -/
noncomputable def aggregateBracketResults (simResult : BracketSimResult) (teams : List Team)
    (modeId modeName tournamentType : String) : TournamentSimulationResult :=
  { modeId := modeId
    modeName := modeName
    tournamentType := tournamentType
    simulationCount := simResult.totalSims
    teamResults := teams.map (teamResultFor simResult)
    mostLikelyChampion := mostLikelyChampionOf simResult.championshipCounts }

/-! ## Mode blender (`src/modes/mode-blender.ts` lines 34-58) -/

/-- `BlendComponent`. -/
structure BlendComponent (σ : Type) where
  mode : SimulationMode σ
  weight : ℝ

/-- `components.some(c => c.mode.confidenceTag === 'whimsical')` (line 54). -/
def blenderHasWhimsical {σ : Type} (components : List (BlendComponent σ)) : Bool :=
  components.any (fun c => c.mode.confidenceTag == ConfidenceTag.whimsical)

/-- `components.every(c => c.mode.category === 'research')` (line 55). -/
def blenderAllResearch {σ : Type} (components : List (BlendComponent σ)) : Bool :=
  components.all (fun c => c.mode.category == ModeCategory.research)

/-- The composite category assignment (line 56). -/
def blenderCategory {σ : Type} (components : List (BlendComponent σ)) : ModeCategory :=
  if blenderHasWhimsical components then ModeCategory.entertainment
  else if blenderAllResearch components then ModeCategory.research
  else ModeCategory.hybrid

/-- The composite confidence-tag assignment (line 57); the source ternary
`hasWhimsical ? 'experimental' : 'experimental'` has identical branches. -/
def blenderConfidenceTag {σ : Type} (components : List (BlendComponent σ)) : ConfidenceTag :=
  if blenderHasWhimsical components then ConfidenceTag.experimental
  else ConfidenceTag.experimental

/-! ## Live-state blender (`src/engine/live-state-blender.ts`) -/

/-- `LiveAdjustedBracket`. -/
structure LiveAdjustedBracket where
  bracket : SerializedBracket
  activeGameSlots : List String
  completedGameSlots : List String

/-- `findLiveGameForSlot` (lines 261-275): the first live game (in `Map`
insertion order) whose home/away team set contains both slot teams. -/
def findLiveGameForSlot (slot : BracketSlot) (liveGames : List LiveGameState) :
    Option LiveGameState :=
  match slot.team1Id, slot.team2Id with
  | some t1, some t2 =>
    liveGames.find? (fun game =>
      (game.homeTeamId == t1 || game.awayTeamId == t1) &&
      (game.homeTeamId == t2 || game.awayTeamId == t2))
  | _, _ => none

/-- The per-slot body of the `blend` map (lines 190-219), returning the
adjusted slot together with its contributions to the `activeGameSlots` and
`completedGameSlots` arrays (the source pushes into those arrays inside the
map callback, so the final arrays are the concatenation of the per-slot
contributions in slot order). -/
noncomputable def blendSlot (lockedSlots : List String) (liveGames : List LiveGameState)
    (slot : BracketSlot) : BracketSlot × List String × List String :=
  if lockedSlots.contains slot.slotId then (slot, [], [slot.slotId])
  else
    match findLiveGameForSlot slot liveGames with
    | none => (slot, [], [])
    | some liveGame =>
      if liveGame.status = GameStatus.final then
        let winnerId :=
          if liveGame.homeScore > liveGame.awayScore then liveGame.homeTeamId
          else liveGame.awayTeamId
        ({ slot with winnerId := some winnerId, liveGame := some liveGame }, [], [slot.slotId])
      else if liveGame.status = GameStatus.inProgress ∨ liveGame.status = GameStatus.halftime then
        ({ slot with liveGame := some liveGame }, [slot.slotId], [])
      else
        ({ slot with liveGame := some liveGame }, [], [])

/-- `blend` (lines 186-229). -/
noncomputable def blend (lockedSlots : List String) (baseBracket : SerializedBracket)
    (liveGames : List LiveGameState) : LiveAdjustedBracket :=
  { bracket :=
      { baseBracket with
        slots := baseBracket.slots.map (fun s => (blendSlot lockedSlots liveGames s).1) }
    activeGameSlots := baseBracket.slots.flatMap (fun s => (blendSlot lockedSlots liveGames s).2.1)
    completedGameSlots :=
      baseBracket.slots.flatMap (fun s => (blendSlot lockedSlots liveGames s).2.2) }

/-- The mutable state of a `LiveStateBlender` instance. -/
structure LiveStateBlenderState where
  baseBracket : SerializedBracket
  teams : List Team
  lockedSlots : List String

/-- `lockResult` (lines 235-256): add the slot to the locked set, record the
winner on the base bracket (dropping any attached live game), and advance the
winner into the next slot — `team1Id` if still empty, else `team2Id`.  The
locked set is modelled as a list read only through membership. -/
def lockResult (st : LiveStateBlenderState) (slotId winnerId : String) :
    LiveStateBlenderState :=
  let locked := st.lockedSlots ++ [slotId]
  match st.baseBracket.slots.find? (fun s => s.slotId == slotId) with
  | none => { st with lockedSlots := locked }
  | some slot =>
    let slots1 := updateSlot st.baseBracket.slots slotId fun s =>
      { s with winnerId := some winnerId, liveGame := none }
    let slots2 :=
      match slot.nextSlotId with
      | none => slots1
      | some nid =>
        match slots1.find? (fun s => s.slotId == nid) with
        | none => slots1
        | some nextSlot =>
          if nextSlot.team1Id.isNone then updateSlot slots1 nid (withTeam1 winnerId)
          else updateSlot slots1 nid (withTeam2 winnerId)
    { st with
      baseBracket := { st.baseBracket with slots := slots2 }
      lockedSlots := locked }

/-! ## Bracket builder (`src/bracket/bracket-builder.ts`) -/

/-- `SEED_MATCHUPS` from `src/core/constants.ts`. -/
def SEED_MATCHUPS : List (ℕ × ℕ) :=
  [(1, 16), (8, 9), (5, 12), (4, 13), (6, 11), (3, 14), (7, 10), (2, 15)]

/-- `REGIONS` from `src/core/constants.ts`. -/
def REGIONS : List String := ["east", "west", "south", "midwest"]

/-- The `teamsByRegionAndSeed` map keyed by `region + "-" + seed`
(`Map.set` overwrites, so the last matching team wins). -/
def teamByRegionSeed (teams : List Team) (region : String) (seed : ℕ) : Option Team :=
  teams.reverse.find? (fun t => t.region == region && t.seed == (seed : ℤ))

/-- `buildRegion` (lines 72-128): the 8 + 4 + 2 + 1 regional slots, pushed in
round order. -/
def buildRegion (region : String) (teams : List Team) : List BracketSlot :=
  let r64 := (List.range 8).map fun g =>
    let m := SEED_MATCHUPS.getD g (0, 0)
    ({ slotId := region ++ "-r1-g" ++ toString (g + 1)
       round := Round.roundOf64
       region := region
       team1Id := (teamByRegionSeed teams region m.1).map (fun t => t.id)
       team2Id := (teamByRegionSeed teams region m.2).map (fun t => t.id)
       nextSlotId := some (region ++ "-r2-g" ++ toString (g / 2 + 1)) } : BracketSlot)
  let r32 := (List.range 4).map fun g =>
    ({ slotId := region ++ "-r2-g" ++ toString (g + 1)
       round := Round.roundOf32
       region := region
       nextSlotId := some (region ++ "-r3-g" ++ toString (g / 2 + 1)) } : BracketSlot)
  let s16 := (List.range 2).map fun g =>
    ({ slotId := region ++ "-r3-g" ++ toString (g + 1)
       round := Round.sweetSixteen
       region := region
       nextSlotId := some (region ++ "-r4-g1") } : BracketSlot)
  let e8 := [({ slotId := region ++ "-r4-g1"
                round := Round.eliteEight
                region := region } : BracketSlot)]
  r64 ++ r32 ++ s16 ++ e8

/-- `updateSlotNextId` (lines 130-133). -/
def updateSlotNextId (slots : List BracketSlot) (slotId nextSlotId : String) :
    List BracketSlot :=
  slots.map fun s => if s.slotId == slotId then { s with nextSlotId := some nextSlotId } else s

/-- `buildBracket` (lines 14-70). -/
def buildBracket (teams : List Team) (year : ℤ) (tournamentType : String) :
    SerializedBracket :=
  let regionSlots := REGIONS.foldl (fun acc region => acc ++ buildRegion region teams) []
  let slots1 := updateSlotNextId regionSlots "east-r4-g1" "ff-g1"
  let slots2 := updateSlotNextId slots1 "west-r4-g1" "ff-g1"
  let slots3 := updateSlotNextId slots2 "south-r4-g1" "ff-g2"
  let slots4 := updateSlotNextId slots3 "midwest-r4-g1" "ff-g2"
  let ff : List BracketSlot :=
    [{ slotId := "ff-g1", round := Round.finalFour, region := "final-four",
       nextSlotId := some "championship" },
     { slotId := "ff-g2", round := Round.finalFour, region := "final-four",
       nextSlotId := some "championship" },
     { slotId := "championship", round := Round.championship, region := "final-four" }]
  { tournamentType := tournamentType, year := year, slots := slots4 ++ ff }

/-! ## Verification-support definitions

Predicates and measures used to state and prove the claims; these are not
part of the embedded source.  `wellFormed` formalises the bracket invariants
of spec §3 ("Bracket slot — Invariants") and the construction shape of §4.F
for the rounds `round-of-64 .. championship`. -/

/-- The roster's team ids, in roster order. -/
def rosterIds (teams : List Team) : List String := teams.map fun t => t.id

/-- `ROUND_INDEX` from `src/core/constants.ts`. -/
def ROUND_INDEX : Round → ℤ
  | Round.firstFour => -1
  | Round.roundOf64 => 0
  | Round.roundOf32 => 1
  | Round.sweetSixteen => 2
  | Round.eliteEight => 3
  | Round.finalFour => 4
  | Round.championship => 5

/-- The successor round along the `ROUNDS_IN_ORDER` walk. -/
def nextRound : Round → Option Round
  | Round.roundOf64 => some Round.roundOf32
  | Round.roundOf32 => some Round.sweetSixteen
  | Round.sweetSixteen => some Round.eliteEight
  | Round.eliteEight => some Round.finalFour
  | Round.finalFour => some Round.championship
  | _ => none

/-- The predecessor round along the `ROUNDS_IN_ORDER` walk. -/
def prevRound : Round → Option Round
  | Round.roundOf32 => some Round.roundOf64
  | Round.sweetSixteen => some Round.roundOf32
  | Round.eliteEight => some Round.sweetSixteen
  | Round.finalFour => some Round.eliteEight
  | Round.championship => some Round.finalFour
  | _ => none

/-- Number of round-`r` slots whose winners advance into slot id `nid`. -/
def feederCount (slots : List BracketSlot) (r : Round) (nid : String) : ℕ :=
  (slots.filter (fun s => s.round == r && s.nextSlotId == some nid)).length

/-- Per-slot static well-formedness (Boolean, so that concrete brackets can
be checked by `decide`): the slot lives in `round-of-64 .. championship`;
round-of-64 slots carry two roster teams and later slots start empty; no
winner is preset; a non-championship slot feeds an existing next-round slot;
a non-round-of-64 slot has exactly two feeders; the championship slot is
named `"championship"` and feeds nothing. -/
def slotStaticOk (slots : List BracketSlot) (teams : List Team) (s : BracketSlot) : Bool :=
  (s.round != Round.firstFour) &&
  (if s.round == Round.roundOf64 then
      (match s.team1Id with
       | some a => (rosterIds teams).contains a
       | none => false) &&
      (match s.team2Id with
       | some b => (rosterIds teams).contains b
       | none => false)
    else s.team1Id.isNone && s.team2Id.isNone) &&
  s.winnerId.isNone &&
  (match nextRound s.round with
   | some r' =>
     match s.nextSlotId with
     | some nid => slots.any fun T => T.slotId == nid && T.round == r'
     | none => false
   | none => true) &&
  (match prevRound s.round with
   | some r => feederCount slots r s.slotId == 2
   | none => true) &&
  (if s.round == Round.championship then
      s.slotId == "championship" && s.nextSlotId == none
    else true)

/-- Well-formed 64-team bracket and roster (spec §3 invariants + §4.F shape):
unique slot ids, unique roster ids, every slot statically well-formed, and
exactly one championship slot. -/
def wellFormed (bracket : SerializedBracket) (teams : List Team) : Prop :=
  (bracket.slots.map fun s => s.slotId).Nodup ∧
  (teams.map fun t => t.id).Nodup ∧
  (∀ s ∈ bracket.slots, slotStaticOk bracket.slots teams s = true) ∧
  (bracket.slots.filter fun s => s.round == Round.championship).length = 1

instance (bracket : SerializedBracket) (teams : List Team) :
    Decidable (wellFormed bracket teams) := by
  unfold wellFormed; exact inferInstance

/-- The slot fields never touched by winner advancement. -/
def skel (s : BracketSlot) : String × Round × String × Option String × Option LiveGameState :=
  (s.slotId, s.round, s.region, s.nextSlotId, s.liveGame)

/-- The team-id entries currently occupying a slot. -/
def slotOccupants (s : BracketSlot) : List String := s.team1Id.toList ++ s.team2Id.toList

/-- All occupants of the given round's slots. -/
def occList (slots : List BracketSlot) (r : Round) : List String :=
  (slots.filter fun s => s.round == r).flatMap slotOccupants

/-- Occupants of the slot with the given id (empty if the id is absent). -/
def occOf (slots : List BracketSlot) (id : String) : List String :=
  match getSlot slots id with
  | some s => slotOccupants s
  | none => []

/-- Number of assigned team positions of a slot (0, 1 or 2). -/
def fillCount (s : BracketSlot) : ℕ :=
  (if s.team1Id.isSome then 1 else 0) + (if s.team2Id.isSome then 1 else 0)

/-- Whether the slot with id `id` advances its winner into slot id `nid`. -/
def feedsInto (slots : List BracketSlot) (id nid : String) : Bool :=
  match getSlot slots id with
  | some s => s.nextSlotId == some nid
  | none => false

/-- Entry condition for processing round `r` within one Monte Carlo run:
every round-`r` slot is ready with two roster occupants, and every
later-round slot is still completely empty. -/
def roundEntry (teams : List Team) (slots : List BracketSlot) (r : Round) : Prop :=
  (∀ s ∈ slots, s.round = r →
    (∃ a ∈ rosterIds teams, s.team1Id = some a) ∧
    (∃ b ∈ rosterIds teams, s.team2Id = some b) ∧ s.winnerId = none) ∧
  (∀ s ∈ slots, ROUND_INDEX r < ROUND_INDEX s.round →
    s.team1Id = none ∧ s.team2Id = none ∧ s.winnerId = none)

/-! ## Concrete instances used by witnesses and counterexamples -/

/-- A metrics record with every field 0. -/
def zeroMetrics : TeamMetrics :=
  { adjOffensiveEfficiency := 0, adjDefensiveEfficiency := 0, adjTempo := 0
    strengthOfSchedule := 0, nonConferenceSOS := 0, effectiveFGPct := 0
    threePointRate := 0, threePointPct := 0, freeThrowRate := 0, freeThrowPct := 0
    offensiveReboundPct := 0, defensiveReboundPct := 0, turnoverPct := 0
    stealPct := 0, averageHeight := 0, benchMinutesPct := 0, experienceRating := 0
    wins := 0, losses := 0, conferenceWins := 0, conferenceLosses := 0
    last10Wins := 0, last10Losses := 0, winStreak := 0 }

/-- A roster team with the given id, seed and region. -/
def mkTeam (id : String) (seed : ℤ) (region : String) : Team :=
  { id := id, name := id, shortName := id, seed := seed, region := region
    conference := "conf", tournamentType := "mens", metrics := zeroMetrics }

/-- A neutral variance configuration for concrete modes. -/
def plainVariance : VarianceConfig :=
  { baseVariance := 0.1, upsetMultiplier := 1, liveStateWeight := 0
    roundVarianceMultipliers := fun _ => none, seedGapSensitivity := 0 }

/-- A stateless, statistically-validated research mode. -/
def svResearchMode : SimulationMode Unit :=
  { id := "sv", name := "sv", description := "sv"
    category := ModeCategory.research
    confidenceTag := ConfidenceTag.statisticallyValidated
    getMetricWeights := []
    getVarianceConfig := plainVariance
    adjustProbability := fun p _ _ _ => p }

/-- A stateful mode whose opaque per-run state counts completed games:
`initializeSimState` returns 0 and `onGameComplete` increments. -/
def gameCounterMode : SimulationMode ℕ :=
  { id := "counter", name := "counter", description := "counter"
    category := ModeCategory.research
    confidenceTag := ConfidenceTag.experimental
    getMetricWeights := []
    getVarianceConfig := plainVariance
    adjustProbability := fun p _ _ _ => p
    initializeSimState := some fun _ => 0
    onGameComplete := some fun _ _ _ n => n + 1 }

/-- A two-team roster. -/
def pairTeams : List Team := [mkTeam "t1" 1 "east", mkTeam "t2" 2 "east"]

/-- A one-game bracket: a single round-of-64 slot holding the two teams. -/
def pairBracket : SerializedBracket :=
  { tournamentType := "mens", year := 2025
    slots := [{ slotId := "g1", round := Round.roundOf64, region := "east"
                team1Id := some "t1", team2Id := some "t2" }] }

/-- Feeder slot `A`: first (lower-index) feeder of slot `T`. -/
def feederSlotA : BracketSlot :=
  { slotId := "A", round := Round.finalFour, region := "final-four"
    team1Id := some "a1", team2Id := some "a2", nextSlotId := some "T" }

/-- Feeder slot `B`: second (higher-index) feeder of slot `T`. -/
def feederSlotB : BracketSlot :=
  { slotId := "B", round := Round.finalFour, region := "final-four"
    team1Id := some "b1", team2Id := some "b2", nextSlotId := some "T" }

/-- Target slot `T`, initially empty. -/
def targetSlotT : BracketSlot :=
  { slotId := "T", round := Round.championship, region := "final-four" }

/-- The three-slot bracket state used for the feeder-order analysis. -/
def feederSlots : List BracketSlot := [feederSlotA, feederSlotB, targetSlotT]

/-- A slot with two assigned teams and no result. -/
def liveSlot : BracketSlot :=
  { slotId := "L", round := Round.roundOf64, region := "east"
    team1Id := some "h", team2Id := some "a" }

/-- A final live game for `liveSlot` with a tied score. -/
def tiedFinalGame : LiveGameState :=
  { gameId := "lg", homeTeamId := "h", awayTeamId := "a", round := Round.roundOf64
    homeScore := 70, awayScore := 70, period := 2, timeRemainingSeconds := 0
    status := GameStatus.final }

/-- A one-slot base bracket for the live-state blender. -/
def liveBracket : SerializedBracket :=
  { tournamentType := "mens", year := 2025, slots := [liveSlot] }

/-- A simulation result with all counts zero over one run. -/
def zeroSimResult : BracketSimResult :=
  { roundCounts := fun _ _ => 0, championshipCounts := [], totalSims := 1 }

/-- A simulation result in which two teams tie on championship counts. -/
def tieSimResult : BracketSimResult :=
  { roundCounts := fun _ _ => 0
    championshipCounts := [("b16", 5), ("a1", 5)]
    totalSims := 10 }

/-- The initial `SimAccum` of
`simulateFullBracket pairBracket pairTeams gameCounterMode`: the mode state
`initializeSimState?.()` is created once, before the run loop. -/
def counterInit : SimAccum ℕ :=
  { roundCounts := fun _ _ => 0
    championshipCounts := initChampionshipCounts pairTeams
    modeState := gameCounterMode.initializeSimState.map fun f => f () }

/-- A full 64-team synthetic roster: 16 seeds in each of the four regions. -/
def teams64 : List Team :=
  REGIONS.flatMap fun rg =>
    (List.range 16).map fun i => mkTeam (rg ++ "-" ++ toString (i + 1)) (i + 1) rg

/-- The standard 63-slot bracket built from `teams64`. -/
def bracket64 : SerializedBracket := buildBracket teams64 2025 "mens"

/-! # Theorems -/

/-! ## Basic lemmas about slot lookup and in-place updates -/

theorem getSlot_eq_some {slots : List BracketSlot} {id : String} {s : BracketSlot}
    (h : getSlot slots id = some s) : s ∈ slots ∧ s.slotId = id := by
  unfold getSlot at h
  refine ⟨List.mem_of_find?_eq_some h, ?_⟩
  have hp := List.find?_some h
  simpa using hp

theorem find?_congr_pred {α : Type} (p q : α → Bool) (l : List α) (h : ∀ a, p a = q a) :
    l.find? p = l.find? q := by
  induction l with
  | nil => rfl
  | cons a t ih => rw [List.find?_cons, List.find?_cons, h a, ih]

theorem getSlot_updateSlot (slots : List BracketSlot) (id x : String)
    (f : BracketSlot → BracketSlot) (hid : ∀ s, (f s).slotId = s.slotId) :
    getSlot (updateSlot slots id f) x =
      (getSlot slots x).map fun s => if s.slotId == id then f s else s := by
  unfold getSlot updateSlot
  rw [List.find?_map]
  rw [find?_congr_pred _ (fun s => s.slotId == x) slots ?_]
  intro s
  by_cases h : (s.slotId == id) = true <;> simp [Function.comp, h, hid]

theorem getSlot_updateSlot_ne (slots : List BracketSlot) (id x : String)
    (f : BracketSlot → BracketSlot) (hid : ∀ s, (f s).slotId = s.slotId) (hne : x ≠ id) :
    getSlot (updateSlot slots id f) x = getSlot slots x := by
  rw [getSlot_updateSlot slots id x f hid]
  cases h : getSlot slots x with
  | none => rfl
  | some s =>
    have hs := (getSlot_eq_some h).2
    simp [hs, hne]

theorem getSlot_updateSlot_self (slots : List BracketSlot) (id : String)
    (f : BracketSlot → BracketSlot) {s : BracketSlot} (hid : ∀ s, (f s).slotId = s.slotId)
    (h : getSlot slots id = some s) :
    getSlot (updateSlot slots id f) id = some (f s) := by
  rw [getSlot_updateSlot slots id id f hid]
  have hs := (getSlot_eq_some h).2
  simp [h, hs]

theorem updateSlot_map_skel (slots : List BracketSlot) (id : String)
    (f : BracketSlot → BracketSlot) (hf : ∀ s, skel (f s) = skel s) :
    (updateSlot slots id f).map skel = slots.map skel := by
  unfold updateSlot
  rw [List.map_map]
  apply List.map_congr_left
  intro s _
  by_cases h : (s.slotId == id) = true <;> simp [Function.comp, h, hf]

/-! ## `setWinner` lookup specifications -/

theorem setWinner_of_none {slots : List BracketSlot} {sid : String} (wid : String)
    (h : getSlot slots sid = none) : setWinner slots sid wid = slots := by
  simp only [setWinner, h]

theorem setWinner_eq_noNext {slots : List BracketSlot} {sid : String} {s : BracketSlot}
    (wid : String) (hs : getSlot slots sid = some s) (hnone : s.nextSlotId = none) :
    setWinner slots sid wid = updateSlot slots sid (withWinner wid) := by
  simp only [setWinner, hs, hnone]

theorem setWinner_eq_next_noTarget {slots : List BracketSlot} {sid nid : String}
    {s : BracketSlot} (wid : String) (hs : getSlot slots sid = some s)
    (hnext : s.nextSlotId = some nid)
    (hT : getSlot (updateSlot slots sid (withWinner wid)) nid = none) :
    setWinner slots sid wid = updateSlot slots sid (withWinner wid) := by
  simp only [setWinner, hs, hnext, hT]

theorem setWinner_eq_next_raw {slots : List BracketSlot} {sid nid : String} {s T : BracketSlot}
    (wid : String) (hs : getSlot slots sid = some s) (hnext : s.nextSlotId = some nid)
    (hT : getSlot (updateSlot slots sid (withWinner wid)) nid = some T) :
    setWinner slots sid wid =
      (if T.team1Id.isNone then
        updateSlot (updateSlot slots sid (withWinner wid)) nid (withTeam1 wid)
      else
        updateSlot (updateSlot slots sid (withWinner wid)) nid (withTeam2 wid)) := by
  simp only [setWinner, hs, hnext, hT]

theorem setWinner_eq_next {slots : List BracketSlot} {sid nid : String} {s T : BracketSlot}
    (wid : String) (hs : getSlot slots sid = some s) (hnext : s.nextSlotId = some nid)
    (hne : sid ≠ nid) (hT : getSlot slots nid = some T) :
    setWinner slots sid wid =
      (if T.team1Id.isNone then
        updateSlot (updateSlot slots sid (withWinner wid)) nid (withTeam1 wid)
      else
        updateSlot (updateSlot slots sid (withWinner wid)) nid (withTeam2 wid)) := by
  have h1 : getSlot (updateSlot slots sid (withWinner wid)) nid = some T := by
    rw [getSlot_updateSlot_ne slots sid nid (withWinner wid) (fun _ => rfl) (Ne.symm hne)]
    exact hT
  exact setWinner_eq_next_raw wid hs hnext h1

theorem setWinner_getSlot_target {slots : List BracketSlot} {sid nid : String} {s T : BracketSlot}
    (wid : String) (hs : getSlot slots sid = some s) (hnext : s.nextSlotId = some nid)
    (hne : sid ≠ nid) (hT : getSlot slots nid = some T) :
    getSlot (setWinner slots sid wid) nid =
      some (if T.team1Id.isNone then withTeam1 wid T else withTeam2 wid T) := by
  rw [setWinner_eq_next wid hs hnext hne hT]
  have h1 : getSlot (updateSlot slots sid (withWinner wid)) nid = some T := by
    rw [getSlot_updateSlot_ne slots sid nid (withWinner wid) (fun _ => rfl) (Ne.symm hne)]
    exact hT
  by_cases hfill : T.team1Id.isNone
  · rw [if_pos hfill, if_pos hfill,
      getSlot_updateSlot_self (updateSlot slots sid (withWinner wid)) nid (withTeam1 wid)
        (fun _ => rfl) h1]
  · rw [if_neg hfill, if_neg hfill,
      getSlot_updateSlot_self (updateSlot slots sid (withWinner wid)) nid (withTeam2 wid)
        (fun _ => rfl) h1]

theorem setWinner_getSlot_self_next {slots : List BracketSlot} {sid nid : String}
    {s T : BracketSlot} (wid : String) (hs : getSlot slots sid = some s)
    (hnext : s.nextSlotId = some nid) (hne : sid ≠ nid) (hT : getSlot slots nid = some T) :
    getSlot (setWinner slots sid wid) sid = some (withWinner wid s) := by
  rw [setWinner_eq_next wid hs hnext hne hT]
  have h1 : getSlot (updateSlot slots sid (withWinner wid)) sid = some (withWinner wid s) :=
    getSlot_updateSlot_self slots sid (withWinner wid) (fun _ => rfl) hs
  by_cases hfill : T.team1Id.isNone
  · rw [if_pos hfill,
      getSlot_updateSlot_ne (updateSlot slots sid (withWinner wid)) nid sid (withTeam1 wid)
        (fun _ => rfl) hne]
    exact h1
  · rw [if_neg hfill,
      getSlot_updateSlot_ne (updateSlot slots sid (withWinner wid)) nid sid (withTeam2 wid)
        (fun _ => rfl) hne]
    exact h1

theorem setWinner_getSlot_other_next {slots : List BracketSlot} {sid nid : String}
    {s T : BracketSlot} (wid : String) {x : String} (hs : getSlot slots sid = some s)
    (hnext : s.nextSlotId = some nid) (hne : sid ≠ nid) (hT : getSlot slots nid = some T)
    (hx1 : x ≠ sid) (hx2 : x ≠ nid) :
    getSlot (setWinner slots sid wid) x = getSlot slots x := by
  rw [setWinner_eq_next wid hs hnext hne hT]
  by_cases hfill : T.team1Id.isNone
  · rw [if_pos hfill,
      getSlot_updateSlot_ne (updateSlot slots sid (withWinner wid)) nid x (withTeam1 wid)
        (fun _ => rfl) hx2,
      getSlot_updateSlot_ne slots sid x (withWinner wid) (fun _ => rfl) hx1]
  · rw [if_neg hfill,
      getSlot_updateSlot_ne (updateSlot slots sid (withWinner wid)) nid x (withTeam2 wid)
        (fun _ => rfl) hx2,
      getSlot_updateSlot_ne slots sid x (withWinner wid) (fun _ => rfl) hx1]

theorem setWinner_map_skel (slots : List BracketSlot) (sid wid : String) :
    (setWinner slots sid wid).map skel = slots.map skel := by
  cases hs : getSlot slots sid with
  | none => rw [setWinner_of_none wid hs]
  | some s =>
    cases hnext : s.nextSlotId with
    | none =>
      rw [setWinner_eq_noNext wid hs hnext]
      exact updateSlot_map_skel slots sid (withWinner wid) fun _ => rfl
    | some nid =>
      cases hT : getSlot (updateSlot slots sid (withWinner wid)) nid with
      | none =>
        rw [setWinner_eq_next_noTarget wid hs hnext hT]
        exact updateSlot_map_skel slots sid (withWinner wid) fun _ => rfl
      | some T =>
        rw [setWinner_eq_next_raw wid hs hnext hT]
        by_cases hfill : T.team1Id.isNone
        · rw [if_pos hfill,
            updateSlot_map_skel (updateSlot slots sid (withWinner wid)) nid (withTeam1 wid)
              (fun _ => rfl),
            updateSlot_map_skel slots sid (withWinner wid) fun _ => rfl]
        · rw [if_neg hfill,
            updateSlot_map_skel (updateSlot slots sid (withWinner wid)) nid (withTeam2 wid)
              (fun _ => rfl),
            updateSlot_map_skel slots sid (withWinner wid) fun _ => rfl]

/-! ## Claim C1 — determinism with an explicit base seed -/

/-- C1: for every bracket, roster, mode, simulation count and explicitly
supplied base seed, `simulateFullBracket` is a deterministic function of its
inputs: the ambient clock (`Date.now()`, modelled by the `now` argument) has
no influence when a base seed is given, because every run `i` seeds its RNG
with `baseSeed + i`.  Determinism of the mode's `adjustProbability` and
`onGameComplete` is built into the embedding, which models them as pure
functions. -/
theorem C1_simulateFullBracket_deterministic {σ : Type} (bracket : SerializedBracket)
    (teams : List Team) (mode : SimulationMode σ) (simulationCount : ℕ) (baseSeed : ℤ)
    (now now' : ℤ) :
    simulateFullBracket bracket teams mode simulationCount (some baseSeed) now =
      simulateFullBracket bracket teams mode simulationCount (some baseSeed) now' := by
  have h : simStep bracket teams mode (some baseSeed) now =
      simStep bracket teams mode (some baseSeed) now' := by
    funext acc sim
    simp only [simStep]
  unfold simulateFullBracket
  rw [h]

/-! ## Claim C5 — winner advancement order -/

theorem lockResult_getSlot_target (bst : LiveStateBlenderState) {sid nid : String}
    {s T : BracketSlot} (wid : String) (hs : getSlot bst.baseBracket.slots sid = some s)
    (hnext : s.nextSlotId = some nid) (hne : sid ≠ nid)
    (hT : getSlot bst.baseBracket.slots nid = some T) :
    getSlot (lockResult bst sid wid).baseBracket.slots nid =
      some (if T.team1Id.isNone then withTeam1 wid T else withTeam2 wid T) := by
  have h1 : getSlot (updateSlot bst.baseBracket.slots sid fun t =>
      { t with winnerId := some wid, liveGame := none }) nid = some T := by
    rw [getSlot_updateSlot_ne bst.baseBracket.slots sid nid
      (fun t => { t with winnerId := some wid, liveGame := none }) (fun _ => rfl)
      (Ne.symm hne)]
    exact hT
  have hs' : bst.baseBracket.slots.find? (fun t => t.slotId == sid) = some s := hs
  have h1' : (updateSlot bst.baseBracket.slots sid fun t =>
      { t with winnerId := some wid, liveGame := none }).find? (fun t => t.slotId == nid) =
      some T := h1
  simp only [lockResult, hs', hnext, h1']
  by_cases hfill : T.team1Id.isNone
  · rw [if_pos hfill,
      getSlot_updateSlot_self _ nid (withTeam1 wid) (fun _ => rfl) h1, if_pos hfill]
  · rw [if_neg hfill,
      getSlot_updateSlot_self _ nid (withTeam2 wid) (fun _ => rfl) h1, if_neg hfill]

/-- C5 counterexample: in the three-slot state `[A, B, T]` where `A` (the
lower-index feeder of `T`) and `B` (the higher-index feeder) both have
`nextSlotId = T`, resolving `B` first and then `A` puts `B`'s winner in
`team1Id` of `T` and `A`'s winner in `team2Id` — the claim as stated would
require `A`'s winner `"a1"` in `team1Id` regardless of resolution order. -/
theorem C5_counterexample :
    feederSlotA.nextSlotId = some "T" ∧ feederSlotB.nextSlotId = some "T" ∧
    (getSlot (setWinner (setWinner feederSlots "B" "b1") "A" "a1") "T").map
      (fun s => (s.team1Id, s.team2Id)) = some (some "b1", some "a1") ∧
    some "b1" ≠ (some "a1" : Option String) := by
  refine ⟨rfl, rfl, by decide, by decide⟩

/-- C5 (amended): winner advancement fills the next slot's `team1Id` and
`team2Id` in *resolution order*, not in feeder-index order: whichever feeder
of `T` is resolved while `T.team1Id` is still empty fills `team1Id`
(both for `BracketSimState.setWinner` and for `LiveStateBlender.lockResult`),
and a feeder resolved when `team1Id` is already assigned fills `team2Id`.
Under `simulateFullBracket`'s fixed round-by-round, slot-ordered walk this
coincides with feeder order, but it does not hold for arbitrary resolution
orders. -/
theorem C5_advancement_fills_in_resolution_order
    (slots : List BracketSlot) (sid wid nid : String) (s T : BracketSlot)
    (bst : LiveStateBlenderState) (hbs : bst.baseBracket.slots = slots)
    (hs : getSlot slots sid = some s) (hnext : s.nextSlotId = some nid)
    (hne : sid ≠ nid) (hT : getSlot slots nid = some T) :
    (T.team1Id = none →
      getSlot (setWinner slots sid wid) nid = some (withTeam1 wid T) ∧
      getSlot (lockResult bst sid wid).baseBracket.slots nid = some (withTeam1 wid T)) ∧
    (T.team1Id.isSome →
      getSlot (setWinner slots sid wid) nid = some (withTeam2 wid T) ∧
      getSlot (lockResult bst sid wid).baseBracket.slots nid = some (withTeam2 wid T)) := by
  have hsw := setWinner_getSlot_target wid hs hnext hne hT
  have hlr := lockResult_getSlot_target bst wid (hbs ▸ hs) hnext hne (hbs ▸ hT)
  constructor
  · intro hnone
    have hfill : T.team1Id.isNone = true := by rw [hnone]; rfl
    rw [if_pos hfill] at hsw hlr
    exact ⟨hsw, hlr⟩
  · intro hsome
    have hfill : ¬T.team1Id.isNone = true := by
      rw [Option.isNone_iff_eq_none]
      intro hEq
      rw [hEq] at hsome
      simp at hsome
    rw [if_neg hfill] at hsw hlr
    exact ⟨hsw, hlr⟩

theorem C5_witness :
    targetSlotT.team1Id = none ∧
    getSlot (setWinner feederSlots "A" "a1") "T" = some (withTeam1 "a1" targetSlotT) := by
  refine ⟨rfl, ?_⟩
  exact ((C5_advancement_fills_in_resolution_order feederSlots "A" "a1" "T" feederSlotA
    targetSlotT ⟨{ tournamentType := "mens", year := 2025, slots := feederSlots }, [], []⟩
    rfl rfl rfl (by decide) rfl).1 rfl).1

/-! ## Claim C6 — complementarity of the base win probability -/

theorem logitStep_swap (team1 team2 : Team) (acc : ℝ) (kv : String × ℝ) :
    logitStep team2 team1 (-acc) kv = -logitStep team1 team2 acc kv := by
  by_cases hw : kv.2 = 0
  · simp [logitStep, hw]
  · by_cases hl : LOWER_IS_BETTER kv.1 = true
    · simp [logitStep, hw, hl]
      ring
    · simp [logitStep, hw, hl]
      ring

theorem foldl_logitStep_swap (team1 team2 : Team) (l : List (String × ℝ)) :
    ∀ acc : ℝ, l.foldl (logitStep team2 team1) (-acc) = -l.foldl (logitStep team1 team2) acc := by
  induction l with
  | nil => intro acc; simp
  | cons kv t ih =>
    intro acc
    rw [List.foldl_cons, List.foldl_cons, logitStep_swap, ih]

theorem sigmoid_add_sigmoid_neg (x : ℝ) : sigmoid x + sigmoid (-x) = 1 := by
  unfold sigmoid
  rw [neg_neg, Real.exp_neg]
  have h2 : Real.exp x > 0 := Real.exp_pos x
  have hne : Real.exp x ≠ 0 := ne_of_gt h2
  have h1ne : 1 + Real.exp x ≠ 0 := by positivity
  have h2ne : 1 + (Real.exp x)⁻¹ ≠ 0 := by positivity
  field_simp
  ring

theorem getMetricValue_congr {team1 team2 : Team} (h : team1.metrics = team2.metrics)
    (k : String) : getMetricValue team1 k = getMetricValue team2 k := by
  unfold getMetricValue computeMomentumScore
  rw [h]

theorem logitStep_self {team1 team2 : Team} (h : team1.metrics = team2.metrics)
    (acc : ℝ) (kv : String × ℝ) : logitStep team1 team2 acc kv = acc := by
  by_cases hw : kv.2 = 0
  · simp [logitStep, hw]
  · by_cases hl : LOWER_IS_BETTER kv.1 = true <;>
      simp [logitStep, hw, hl, getMetricValue_congr h]

theorem foldl_logitStep_self {team1 team2 : Team} (h : team1.metrics = team2.metrics)
    (l : List (String × ℝ)) : ∀ acc : ℝ, l.foldl (logitStep team1 team2) acc = acc := by
  induction l with
  | nil => intro acc; rfl
  | cons kv t ih =>
    intro acc
    rw [List.foldl_cons, logitStep_self h, ih]

theorem sigmoid_zero : sigmoid 0 = 1 / 2 := by
  unfold sigmoid
  rw [neg_zero, Real.exp_zero]
  norm_num

/-- C6: for every pair of teams and every metric-weight list,
`computeBaseWinProbability(A, B, W) + computeBaseWinProbability(B, A, W) = 1`
exactly (in the real-arithmetic model of JS floats), and two teams with
identical metrics get probability exactly `0.5`: swapping the teams negates
every weighted normalized differential (including the lower-is-better flips),
so the logit negates, and `sigmoid x + sigmoid (-x) = 1`. -/
theorem C6_base_probability_complementarity (team1 team2 : Team) (weights : MetricWeights) :
    computeBaseWinProbability team1 team2 weights +
      computeBaseWinProbability team2 team1 weights = 1 ∧
    (team1.metrics = team2.metrics →
      computeBaseWinProbability team1 team2 weights = 1 / 2) := by
  constructor
  · simp only [computeBaseWinProbability]
    have h := foldl_logitStep_swap team1 team2 weights 0
    rw [neg_zero] at h
    rw [h, neg_mul]
    exact sigmoid_add_sigmoid_neg _
  · intro h
    simp only [computeBaseWinProbability]
    rw [foldl_logitStep_self h, zero_mul, sigmoid_zero]

theorem C6_witness :
    (mkTeam "x" 1 "east").metrics = (mkTeam "x" 1 "east").metrics ∧
    computeBaseWinProbability (mkTeam "x" 1 "east") (mkTeam "x" 1 "east") [] = 1 / 2 :=
  ⟨rfl, (C6_base_probability_complementarity (mkTeam "x" 1 "east") (mkTeam "x" 1 "east") []).2 rfl⟩

/-! ## Claim C9 — blender category and confidence tag -/

/-- C9 counterexample: a blend of two statistically-validated research modes
still gets the composite confidence tag 'experimental' (the source ternary
`hasWhimsical ? 'experimental' : 'experimental'` never produces
'statistically-validated'), contradicting the claim's "unless all components
are statistically-validated" clause. -/
theorem C9_counterexample :
    (∀ c ∈ ([⟨svResearchMode, 1⟩, ⟨svResearchMode, 1⟩] : List (BlendComponent Unit)),
      c.mode.confidenceTag = ConfidenceTag.statisticallyValidated) ∧
    blenderConfidenceTag ([⟨svResearchMode, 1⟩, ⟨svResearchMode, 1⟩] :
        List (BlendComponent Unit)) ≠ ConfidenceTag.statisticallyValidated := by
  constructor
  · intro c hc
    simp only [List.mem_cons, List.not_mem_nil, or_false] at hc
    rcases hc with rfl | rfl <;> rfl
  · simp [blenderConfidenceTag]

/-- C9 (amended): for every blend of at least two component modes, the
composite category is 'entertainment' when some component is whimsical,
'research' when none is whimsical and all are research-category, and 'hybrid'
otherwise; the composite confidence tag is always 'experimental' — also when
every component is statistically validated. -/
theorem C9_blender_category_confidence {σ : Type} (components : List (BlendComponent σ))
    (_h2 : 2 ≤ components.length) :
    blenderConfidenceTag components = ConfidenceTag.experimental ∧
    ((∃ c ∈ components, c.mode.confidenceTag = ConfidenceTag.whimsical) →
      blenderCategory components = ModeCategory.entertainment) ∧
    ((∀ c ∈ components, c.mode.confidenceTag ≠ ConfidenceTag.whimsical) →
      (∀ c ∈ components, c.mode.category = ModeCategory.research) →
      blenderCategory components = ModeCategory.research) ∧
    ((∀ c ∈ components, c.mode.confidenceTag ≠ ConfidenceTag.whimsical) →
      (∃ c ∈ components, c.mode.category ≠ ModeCategory.research) →
      blenderCategory components = ModeCategory.hybrid) := by
  refine ⟨by simp [blenderConfidenceTag], ?_, ?_, ?_⟩
  · intro h
    have hw : blenderHasWhimsical components = true := by
      simp only [blenderHasWhimsical, List.any_eq_true, beq_iff_eq]
      exact h
    simp [blenderCategory, hw]
  · intro hnw hall
    have hw : blenderHasWhimsical components = false := by
      simp only [blenderHasWhimsical, List.any_eq_false, beq_iff_eq]
      exact hnw
    have ha : blenderAllResearch components = true := by
      simp only [blenderAllResearch, List.all_eq_true, beq_iff_eq]
      exact hall
    simp [blenderCategory, hw, ha]
  · intro hnw hex
    have hw : blenderHasWhimsical components = false := by
      simp only [blenderHasWhimsical, List.any_eq_false, beq_iff_eq]
      exact hnw
    have ha : blenderAllResearch components = false := by
      simp only [blenderAllResearch, List.all_eq_false, beq_iff_eq]
      obtain ⟨c, hc, hne⟩ := hex
      exact ⟨c, hc, hne⟩
    simp [blenderCategory, hw, ha]

theorem C9_witness :
    2 ≤ ([⟨svResearchMode, 1⟩, ⟨svResearchMode, 1⟩] : List (BlendComponent Unit)).length ∧
    blenderConfidenceTag ([⟨svResearchMode, 1⟩, ⟨svResearchMode, 1⟩] :
        List (BlendComponent Unit)) = ConfidenceTag.experimental :=
  ⟨by norm_num,
    (C9_blender_category_confidence
      ([⟨svResearchMode, 1⟩, ⟨svResearchMode, 1⟩] : List (BlendComponent Unit))
      (by norm_num)).1⟩

/-! ## Claim C10 — tied final games in the live-state blender -/

/-- C10: when `blend` finds a live game with status 'final' for an unlocked
slot and the home score equals the away score, the slot's `winnerId` is set
to the away team (the home team is declared winner only when its score is
strictly greater), and the slot is reported as completed. -/
theorem C10_blend_tie_goes_to_away_team (lockedSlots : List String)
    (baseBracket : SerializedBracket) (liveGames : List LiveGameState) (i : ℕ)
    (slot : BracketSlot) (g : LiveGameState)
    (hslot : baseBracket.slots[i]? = some slot)
    (hlock : lockedSlots.contains slot.slotId = false)
    (hfind : findLiveGameForSlot slot liveGames = some g)
    (hstatus : g.status = GameStatus.final)
    (htie : g.homeScore = g.awayScore) :
    (blend lockedSlots baseBracket liveGames).bracket.slots[i]? =
      some { slot with winnerId := some g.awayTeamId, liveGame := some g } ∧
    slot.slotId ∈ (blend lockedSlots baseBracket liveGames).completedGameSlots := by
  have hnotgt : ¬g.homeScore > g.awayScore := by
    rw [htie]
    exact lt_irrefl _
  have hbs : blendSlot lockedSlots liveGames slot =
      ({ slot with winnerId := some g.awayTeamId, liveGame := some g }, [], [slot.slotId]) := by
    simp only [blendSlot, hlock, Bool.false_eq_true, if_false, hfind, hstatus, if_pos,
      if_neg hnotgt, reduceCtorEq, ite_false]
  constructor
  · simp only [blend, List.getElem?_map, hslot]
    simp [hbs]
  · simp only [blend, List.mem_flatMap]
    refine ⟨slot, List.getElem?_mem hslot, ?_⟩
    simp [hbs]

theorem C10_witness :
    findLiveGameForSlot liveSlot [tiedFinalGame] = some tiedFinalGame ∧
    tiedFinalGame.homeScore = tiedFinalGame.awayScore ∧
    (blend [] liveBracket [tiedFinalGame]).bracket.slots[0]? =
      some { liveSlot with
              winnerId := some tiedFinalGame.awayTeamId
              liveGame := some tiedFinalGame } := by
  refine ⟨rfl, rfl, ?_⟩
  exact (C10_blend_tie_goes_to_away_team [] liveBracket [tiedFinalGame] 0 liveSlot
    tiedFinalGame rfl rfl rfl rfl rfl).1

/-! ## Claim C7 — aggregator round-probability convention -/

/-- C7 counterexample: for a team whose round-of-64 count is 0 over 1 run,
`aggregateBracketResults` reports `p(round-of-64) = 0`, not the conventional
1 the claim states: the `ROUNDS_IN_ORDER` loop overwrites the conventional
assignment with `counts[round] / totalSims`. -/
theorem C7_counterexample :
    ((aggregateBracketResults zeroSimResult [mkTeam "x" 1 "east"] "m" "m" "mens").teamResults.map
      fun tr => tr.roundProbabilities Round.roundOf64) = [0] ∧ (0 : ℝ) ≠ 1 := by
  constructor
  · simp [aggregateBracketResults, teamResultFor, roundProbsFor, ROUNDS_IN_ORDER,
      setRoundProb, zeroSimResult]
  · norm_num

/-- C7 (amended): every per-team result of `aggregateBracketResults` reports
`p(first-four) = 1` by convention, and `p(round) = roundCount(team, round) /
N` for *every* round of `ROUNDS_IN_ORDER` — including `round-of-64`, whose
conventional value 1 is overwritten by the loop (it still comes out as 1
whenever the team played the round of 64 in all `N` runs). -/
theorem C7_round_probabilities (simResult : BracketSimResult) (team : Team) :
    (teamResultFor simResult team).roundProbabilities Round.firstFour = 1 ∧
    (∀ r ∈ ROUNDS_IN_ORDER,
      (teamResultFor simResult team).roundProbabilities r =
        (simResult.roundCounts team.id r : ℝ) / (simResult.totalSims : ℝ)) := by
  constructor
  · simp [teamResultFor, roundProbsFor, ROUNDS_IN_ORDER, setRoundProb]
  · intro r hr
    fin_cases hr <;>
      simp [teamResultFor, roundProbsFor, ROUNDS_IN_ORDER, setRoundProb]

theorem C7_witness :
    Round.roundOf32 ∈ ROUNDS_IN_ORDER ∧
    (teamResultFor zeroSimResult (mkTeam "x" 1 "east")).roundProbabilities Round.roundOf32 =
      ((zeroSimResult.roundCounts (mkTeam "x" 1 "east").id Round.roundOf32 : ℝ) /
        (zeroSimResult.totalSims : ℝ)) :=
  ⟨by decide,
    (C7_round_probabilities zeroSimResult (mkTeam "x" 1 "east")).2 Round.roundOf32 (by decide)⟩

/-! ## Claim C8 — most-likely-champion selection -/

theorem foldBest_const {l : List (String × ℕ)} {b : String × ℕ}
    (h : ∀ p ∈ l, p.2 ≤ b.2) :
    l.foldl (fun best p => if p.2 > best.2 then (p.1, p.2) else best) b = b := by
  induction l with
  | nil => rfl
  | cons q t ih =>
    rw [List.foldl_cons]
    have hq : ¬q.2 > b.2 := not_lt.mpr (h q (List.mem_cons_self q t))
    rw [if_neg hq]
    exact ih fun p hp => h p (List.mem_cons_of_mem q hp)

theorem foldBest_lt {l : List (String × ℕ)} {c : ℕ} :
    ∀ {b : String × ℕ}, (∀ p ∈ l, p.2 < c) → b.2 < c →
      (l.foldl (fun best p => if p.2 > best.2 then (p.1, p.2) else best) b).2 < c := by
  induction l with
  | nil => intro b _ hb; exact hb
  | cons q t ih =>
    intro b h hb
    rw [List.foldl_cons]
    by_cases hq : q.2 > b.2
    · rw [if_pos hq]
      exact ih (fun p hp => h p (List.mem_cons_of_mem q hp)) (h q (List.mem_cons_self q t))
    · rw [if_neg hq]
      exact ih (fun p hp => h p (List.mem_cons_of_mem q hp)) hb

/-- C8 (amended): `aggregateBracketResults` selects as `mostLikelyChampion`
the id of the *earliest* entry of the championship-count record (insertion
order = roster order) that attains the maximum count, provided that maximum
is positive; ties between equal maximal counts are broken in favor of the
earlier entry — not by seed.  With all counts zero the selection stays the
initial empty string. -/
theorem C8_most_likely_champion (simResult : BracketSimResult) (teams : List Team)
    (modeId modeName tt : String) (l₁ l₂ : List (String × ℕ)) (id : String) (c : ℕ)
    (hsplit : simResult.championshipCounts = l₁ ++ (id, c) :: l₂)
    (hbefore : ∀ p ∈ l₁, p.2 < c) (hafter : ∀ p ∈ l₂, p.2 ≤ c) (hpos : 0 < c) :
    (aggregateBracketResults simResult teams modeId modeName tt).mostLikelyChampion = id ∧
    mostLikelyChampionOf [] = "" := by
  refine ⟨?_, rfl⟩
  have : mostLikelyChampionOf simResult.championshipCounts = id := by
    unfold mostLikelyChampionOf
    rw [hsplit, List.foldl_append, List.foldl_cons]
    have h1 : (l₁.foldl (fun best p => if p.2 > best.2 then (p.1, p.2) else best)
        ("", 0)).2 < c := foldBest_lt hbefore hpos
    rw [if_pos h1]
    rw [foldBest_const hafter]
  exact this

theorem C8_witness :
    tieSimResult.championshipCounts = [] ++ ("b16", 5) :: [("a1", 5)] ∧
    (aggregateBracketResults tieSimResult
      [mkTeam "b16" 16 "east", mkTeam "a1" 1 "east"] "m" "m" "mens").mostLikelyChampion =
      "b16" :=
  ⟨rfl,
    (C8_most_likely_champion tieSimResult [mkTeam "b16" 16 "east", mkTeam "a1" 1 "east"]
      "m" "m" "mens" [] [("a1", 5)] "b16" 5 rfl (by simp) (by simp) (by norm_num)).1⟩

/-- C8 counterexample: two teams tie on the championship count and the team
appearing first in the roster/entries order has the *higher* seed number; the
code selects it, while the claim requires the tie to go to the lower seed
number ("a1", seed 1). -/
theorem C8_counterexample :
    recordGet tieSimResult.championshipCounts "b16" = some 5 ∧
    recordGet tieSimResult.championshipCounts "a1" = some 5 ∧
    (mkTeam "a1" 1 "east").seed < (mkTeam "b16" 16 "east").seed ∧
    (aggregateBracketResults tieSimResult
      [mkTeam "b16" 16 "east", mkTeam "a1" 1 "east"] "m" "m" "mens").mostLikelyChampion =
      "b16" ∧
    ("b16" : String) ≠ "a1" := by
  refine ⟨rfl, rfl, by norm_num [mkTeam], ?_, by decide⟩
  rfl

/-! ## Claim C4 — per-run mode state -/

/-- C4 (the code evaluated at the failing input): `simulateFullBracket` calls
`mode.initializeSimState?.()` once, *before* the Monte Carlo loop, and the
very same state is threaded through every run.  With the counting mode
(state starts at 0 and `onGameComplete` increments) and the one-game
bracket, the state at the start of run 1 is `some 1` — the result of run 0 —
rather than a fresh `some 0`, and after two runs it is `some 2`.  A
fresh-per-run state would read 0 at each run start and never exceed 1. -/
theorem C4_mode_state_shared_across_runs :
    counterInit.modeState = some 0 ∧
    (simStep pairBracket pairTeams gameCounterMode (some 0) 0 counterInit 0).modeState =
      some 1 ∧
    (simStep pairBracket pairTeams gameCounterMode (some 0) 0
      (simStep pairBracket pairTeams gameCounterMode (some 0) 0 counterInit 0) 1).modeState =
      some 2 := by
  refine ⟨rfl, ?_, ?_⟩ <;>
    simp [simStep, simRound, simGame, ROUNDS_IN_ORDER, getReadyGamesForRound, slotReady,
      getSlot, setWinner, updateSlot, getChampion, teamMapGet, pairBracket, pairTeams,
      gameCounterMode, mkTeam, counterInit, withWinner, initChampionshipCounts]

/-! ## Record and lookup helper lemmas -/

theorem getSlot_of_mem_nodup {slots : List BracketSlot} {s : BracketSlot}
    (hnd : (slots.map fun x => x.slotId).Nodup) (hmem : s ∈ slots) :
    getSlot slots s.slotId = some s := by
  induction slots with
  | nil => cases hmem
  | cons a l ih =>
    rw [List.map_cons, List.nodup_cons] at hnd
    rcases List.mem_cons.mp hmem with rfl | hmem'
    · unfold getSlot
      rw [List.find?_cons_of_pos]
      simp
    · have hne : (a.slotId == s.slotId) = false := by
        have : s.slotId ∈ l.map fun x => x.slotId := List.mem_map_of_mem _ hmem'
        simp only [beq_eq_false_iff_ne, ne_eq]
        intro hEq
        exact hnd.1 (hEq ▸ this)
      unfold getSlot at *
      rw [List.find?_cons_of_neg _ (by simp [hne])]
      exact ih hnd.2 hmem'

theorem recordGet_recordSet (l : List (String × ℕ)) (k x : String) (v : ℕ) :
    recordGet (recordSet l k v) x = if x = k then some v else recordGet l x := by
  unfold recordSet
  by_cases hany : l.any (fun p => p.1 == k) = true
  · rw [if_pos hany]
    unfold recordGet
    rw [List.find?_map]
    by_cases hx : x = k
    · subst hx
      have hp : ∀ p : String × ℕ,
          ((fun q => q.1 == x) ∘ fun p => if p.1 == x then (x, v) else p) p =
            (p.1 == x) := by
        intro p
        by_cases h : (p.1 == x) = true <;> simp [Function.comp, h]
      rw [find?_congr_pred _ _ _ hp, if_pos rfl]
      rw [List.any_eq_true] at hany
      obtain ⟨q, hq, hqk⟩ := hany
      have hsome : (l.find? fun p => p.1 == x).isSome :=
        List.find?_isSome.mpr ⟨q, hq, hqk⟩
      obtain ⟨q', hq'⟩ := Option.isSome_iff_exists.mp hsome
      have hq'k := List.find?_some hq'
      have hq'x : q'.1 = x := by simpa using hq'k
      rw [hq', Option.map_map]
      simp [Function.comp, hq'x]
    · have hp : ∀ p : String × ℕ,
          ((fun q => q.1 == x) ∘ fun p => if p.1 == k then (k, v) else p) p =
            (p.1 == x) := by
        intro p
        by_cases h : (p.1 == k) = true
        · have : p.1 = k := by simpa using h
          simp [Function.comp, h, this, Ne.symm hx, hx]
        · simp [Function.comp, h]
      rw [find?_congr_pred _ _ _ hp, if_neg hx]
      cases hf : l.find? fun p => p.1 == x with
      | none => rfl
      | some q =>
        have hqx := List.find?_some hf
        have hq1 : q.1 = x := by simpa using hqx
        have hqk : ¬q.1 = k := by rw [hq1]; exact hx
        simp [hqk]
  · rw [if_neg hany]
    unfold recordGet
    rw [List.find?_append]
    have hnone : l.find? (fun p => p.1 == k) = none := by
      rw [List.find?_eq_none]
      intro p hp
      exact fun h => absurd (List.any_eq_true.mpr ⟨p, hp, h⟩) hany
    by_cases hx : x = k
    · subst hx
      rw [hnone]
      simp
    · have hsingle : ([(k, v)].find? fun p => p.1 == x) = none := by
        rw [List.find?_eq_none]
        intro p hp
        simp only [List.mem_singleton] at hp
        subst hp
        simp only [beq_iff_eq]
        exact fun h => hx h.symm
      rw [hsingle, if_neg hx]
      cases hf : l.find? fun p => p.1 == x <;> rfl

theorem recordGet_eq_some_mem {l : List (String × ℕ)} {x : String} {n : ℕ}
    (h : recordGet l x = some n) : ∃ p ∈ l, p.2 = n := by
  unfold recordGet at h
  cases hf : l.find? fun p => p.1 == x with
  | none => rw [hf] at h; cases h
  | some q =>
    rw [hf] at h
    exact ⟨q, List.mem_of_find?_eq_some hf, by simpa using h⟩

theorem recordSet_values {l : List (String × ℕ)} {k : String} {v : ℕ}
    (hl : ∀ p ∈ l, p.2 = 0) (hv : v = 0) :
    ∀ p ∈ recordSet l k v, p.2 = 0 := by
  intro p hp
  unfold recordSet at hp
  by_cases hany : l.any (fun q => q.1 == k) = true
  · rw [if_pos hany] at hp
    obtain ⟨q, hq, hqe⟩ := List.mem_map.mp hp
    by_cases h : (q.1 == k) = true
    · rw [if_pos h] at hqe
      rw [← hqe, hv]
    · rw [if_neg h] at hqe
      rw [← hqe]
      exact hl q hq
  · rw [if_neg hany] at hp
    rcases List.mem_append.mp hp with h | h
    · exact hl p h
    · simp only [List.mem_singleton] at h
      rw [h, hv]

theorem initChampionshipCounts_values (teams : List Team) :
    ∀ p ∈ initChampionshipCounts teams, p.2 = 0 := by
  unfold initChampionshipCounts
  suffices h : ∀ (ts : List Team) (cc : List (String × ℕ)), (∀ p ∈ cc, p.2 = 0) →
      ∀ p ∈ ts.foldl (fun acc t => recordSet acc t.id 0) cc, p.2 = 0 by
    exact h teams [] (by intro p hp; cases hp)
  intro ts
  induction ts with
  | nil => intro cc hcc p hp; exact hcc p hp
  | cons t ts ih =>
    intro cc hcc p hp
    rw [List.foldl_cons] at hp
    exact ih (recordSet cc t.id 0) (recordSet_values hcc rfl) p hp

theorem sum_recordGet_init (teams : List Team) :
    (teams.map fun t => (recordGet (initChampionshipCounts teams) t.id).getD 0).sum = 0 := by
  apply List.sum_eq_zero
  intro x hx
  obtain ⟨t, _, hte⟩ := List.mem_map.mp hx
  cases hr : recordGet (initChampionshipCounts teams) t.id with
  | none => rw [hr] at hte; simpa using hte.symm
  | some n =>
    rw [hr] at hte
    obtain ⟨p, hp, hpn⟩ := recordGet_eq_some_mem hr
    have : n = 0 := by rw [← hpn]; exact initChampionshipCounts_values teams p hp
    rw [this] at hte
    simpa using hte.symm

theorem sum_bumpChampionship (teams : List Team) (cc : List (String × ℕ)) (c : String)
    (hc : c ∈ rosterIds teams) (hnd : (teams.map fun t => t.id).Nodup) :
    (teams.map fun t => (recordGet (bumpChampionship cc c) t.id).getD 0).sum =
      (teams.map fun t => (recordGet cc t.id).getD 0).sum + 1 := by
  unfold bumpChampionship
  induction teams with
  | nil => cases hc
  | cons t ts ih =>
    rw [List.map_cons, List.nodup_cons] at hnd
    rw [List.map_cons, List.map_cons, List.sum_cons, List.sum_cons]
    unfold rosterIds at hc
    rw [List.map_cons] at hc
    rcases List.mem_cons.mp hc with hct | hct
    · -- the head team is the champion; all tail ids differ from c
      rw [recordGet_recordSet, if_pos hct.symm]
      have htail : (ts.map fun t' => (recordGet (recordSet cc c
          ((recordGet cc c).getD 0 + 1)) t'.id).getD 0) =
          ts.map fun t' => (recordGet cc t'.id).getD 0 := by
        apply List.map_congr_left
        intro t' ht'
        rw [recordGet_recordSet]
        have : t'.id ≠ c := by
          intro hEq
          apply hnd.1
          rw [← hct, ← hEq]
          exact List.mem_map_of_mem _ ht'
        rw [if_neg this]
      rw [htail, ← hct]
      simp only [Option.getD_some]
      omega
    · -- the champion is in the tail; the head id differs from c
      have hht : t.id ≠ c := by
        intro hEq
        apply hnd.1
        rw [hEq]
        exact hct
      rw [recordGet_recordSet, if_neg hht]
      have := ih hct hnd.2
      omega

/-! ## Well-formedness extraction and skeleton transport -/

theorem slotOk_parts {slots : List BracketSlot} {teams : List Team} {s : BracketSlot}
    (h : slotStaticOk slots teams s = true) :
    s.round ≠ Round.firstFour ∧
    (s.round = Round.roundOf64 →
      (∃ a ∈ rosterIds teams, s.team1Id = some a) ∧
      (∃ b ∈ rosterIds teams, s.team2Id = some b)) ∧
    (s.round ≠ Round.roundOf64 → s.team1Id = none ∧ s.team2Id = none) ∧
    s.winnerId = none ∧
    (∀ r', nextRound s.round = some r' →
      ∃ nid, s.nextSlotId = some nid ∧ ∃ T ∈ slots, T.slotId = nid ∧ T.round = r') ∧
    (∀ r, prevRound s.round = some r → feederCount slots r s.slotId = 2) ∧
    (s.round = Round.championship → s.slotId = "championship" ∧ s.nextSlotId = none) := by
  unfold slotStaticOk at h
  simp only [Bool.and_eq_true] at h
  obtain ⟨⟨⟨⟨⟨h1, h2⟩, h3⟩, h4⟩, h5⟩, h6⟩ := h
  refine ⟨by simpa using h1, ?_, ?_, by simpa using h3, ?_, ?_, ?_⟩
  · intro hr
    rw [if_pos (by simp [hr])] at h2
    rw [Bool.and_eq_true] at h2
    obtain ⟨ha, hb⟩ := h2
    constructor
    · cases h1 : s.team1Id with
      | none => rw [h1] at ha; cases ha
      | some a =>
        rw [h1] at ha
        refine ⟨a, ?_, rfl⟩
        simpa [List.elem_iff] using ha
    · cases h2 : s.team2Id with
      | none => rw [h2] at hb; cases hb
      | some b =>
        rw [h2] at hb
        refine ⟨b, ?_, rfl⟩
        simpa [List.elem_iff] using hb
  · intro hr
    rw [if_neg (by simp [hr])] at h2
    rw [Bool.and_eq_true] at h2
    exact ⟨Option.isNone_iff_eq_none.mp h2.1, Option.isNone_iff_eq_none.mp h2.2⟩
  · intro r' hr'
    rw [hr'] at h4
    cases hn : s.nextSlotId with
    | none => rw [hn] at h4; cases h4
    | some nid =>
      rw [hn] at h4
      rw [List.any_eq_true] at h4
      obtain ⟨T, hT, hTp⟩ := h4
      rw [Bool.and_eq_true] at hTp
      exact ⟨nid, rfl, T, hT, by simpa using hTp.1, by simpa using hTp.2⟩
  · intro r hr
    rw [hr] at h5
    simpa using h5
  · intro hch
    rw [if_pos (by simp [hch])] at h6
    rw [Bool.and_eq_true] at h6
    exact ⟨by simpa using h6.1, by simpa using h6.2⟩

theorem skel_slotId_map {st B : List BracketSlot} (h : st.map skel = B.map skel) :
    (st.map fun s => s.slotId) = B.map fun s => s.slotId := by
  have hm : ∀ l : List BracketSlot,
      l.map (fun s => s.slotId) = (l.map skel).map fun q => q.1 := by
    intro l
    rw [List.map_map]
    rfl
  rw [hm st, hm B, h]

theorem skel_mem_exists {st B : List BracketSlot} (h : st.map skel = B.map skel)
    {s : BracketSlot} (hs : s ∈ st) : ∃ b ∈ B, skel b = skel s := by
  have hmem : skel s ∈ B.map skel := by
    rw [← h]
    exact List.mem_map_of_mem _ hs
  obtain ⟨b, hb, hbe⟩ := List.mem_map.mp hmem
  exact ⟨b, hb, hbe⟩

theorem skel_mem_exists' {st B : List BracketSlot} (h : st.map skel = B.map skel)
    {b : BracketSlot} (hb : b ∈ B) : ∃ s ∈ st, skel s = skel b := by
  have hmem : skel b ∈ st.map skel := by
    rw [h]
    exact List.mem_map_of_mem _ hb
  obtain ⟨s, hs, hse⟩ := List.mem_map.mp hmem
  exact ⟨s, hs, hse⟩

theorem skel_eq_parts {a b : BracketSlot} (h : skel a = skel b) :
    a.slotId = b.slotId ∧ a.round = b.round ∧ a.region = b.region ∧
    a.nextSlotId = b.nextSlotId ∧ a.liveGame = b.liveGame := by
  unfold skel at h
  simpa [Prod.ext_iff] using h

theorem feederCount_skel_eq {st B : List BracketSlot} (h : st.map skel = B.map skel)
    (r : Round) (nid : String) : feederCount st r nid = feederCount B r nid := by
  unfold feederCount
  rw [← List.countP_eq_length_filter, ← List.countP_eq_length_filter]
  have hc : ∀ l : List BracketSlot,
      l.countP (fun s => s.round == r && s.nextSlotId == some nid) =
        (l.map skel).countP fun q => q.2.1 == r && q.2.2.2.1 == some nid := by
    intro l
    rw [List.countP_map]
    rfl
  rw [hc st, hc B, h]

theorem nextRound_prevRound {r r' : Round} (h : nextRound r = some r') :
    prevRound r' = some r := by
  cases r <;> simp [nextRound] at h <;> subst h <;> rfl

theorem nextRound_lt {r r' : Round} (h : nextRound r = some r') :
    ROUND_INDEX r < ROUND_INDEX r' := by
  cases r <;> simp [nextRound] at h <;> subst h <;> decide

theorem nextRound_ne {r r' : Round} (h : nextRound r = some r') : r ≠ r' := by
  cases r <;> simp [nextRound] at h <;> subst h <;> decide

/-- All static facts the round walk needs, transported along skeleton
equality from a well-formed bracket to any state reachable from it. -/
theorem statics_transport {bracket : SerializedBracket} {teams : List Team}
    (hwf : wellFormed bracket teams) {st : List BracketSlot}
    (hskel : st.map skel = bracket.slots.map skel) :
    (st.map fun s => s.slotId).Nodup ∧
    (∀ r r', nextRound r = some r' → ∀ s ∈ st, s.round = r →
      ∃ nid, s.nextSlotId = some nid ∧ ∃ T, getSlot st nid = some T ∧ T.round = r') ∧
    (∀ r r', nextRound r = some r' → ∀ T ∈ st, T.round = r' →
      feederCount st r T.slotId = 2) ∧
    (∀ s ∈ st, s.round = Round.championship → s.slotId = "championship" ∧
      s.nextSlotId = none) := by
  obtain ⟨hnd, _, hok, _⟩ := hwf
  have hndst : (st.map fun s => s.slotId).Nodup := by
    rw [skel_slotId_map hskel]
    exact hnd
  refine ⟨hndst, ?_, ?_, ?_⟩
  · intro r r' hrr s hs hsr
    obtain ⟨b, hb, hbe⟩ := skel_mem_exists hskel hs
    obtain ⟨_, hbr, _, hbn, _⟩ := skel_eq_parts hbe
    have hparts := slotOk_parts (hok b hb)
    obtain ⟨nid, hnid, T, hT, hTid, hTr⟩ := hparts.2.2.2.2.1 r' (by rw [hbr, hsr]; exact hrr)
    refine ⟨nid, by rw [← hbn]; exact hnid, ?_⟩
    obtain ⟨T', hT', hTe'⟩ := skel_mem_exists' hskel hT
    obtain ⟨hTid', hTr', _⟩ := skel_eq_parts hTe'
    refine ⟨T', ?_, by rw [hTr']; exact hTr⟩
    have := getSlot_of_mem_nodup hndst hT'
    rw [hTid', hTid] at this
    exact this
  · intro r r' hrr T hT hTr
    obtain ⟨b, hb, hbe⟩ := skel_mem_exists hskel hT
    obtain ⟨hbid, hbr, _⟩ := skel_eq_parts hbe
    have hparts := slotOk_parts (hok b hb)
    have hfc := hparts.2.2.2.2.2.1 r
      (by rw [hbr, hTr]; exact nextRound_prevRound hrr)
    rw [feederCount_skel_eq hskel, ← hbid]
    exact hfc
  · intro s hs hsr
    obtain ⟨b, hb, hbe⟩ := skel_mem_exists hskel hs
    obtain ⟨hbid, hbr, _, hbn, _⟩ := skel_eq_parts hbe
    have hparts := slotOk_parts (hok b hb)
    have hch := hparts.2.2.2.2.2.2 (by rw [hbr]; exact hsr)
    exact ⟨by rw [← hbid]; exact hch.1, by rw [← hbn]; exact hch.2⟩

theorem wf_champ_exists {bracket : SerializedBracket} {teams : List Team}
    (hwf : wellFormed bracket teams) :
    ∃ b ∈ bracket.slots, b.round = Round.championship ∧ b.slotId = "championship" := by
  obtain ⟨_, _, hok, hlen⟩ := hwf
  have hpos : 0 < (bracket.slots.filter fun s => s.round == Round.championship).length := by
    rw [hlen]
    norm_num
  obtain ⟨b, hb⟩ := List.exists_mem_of_length_pos hpos
  have hmem := List.mem_of_mem_filter hb
  have hround : b.round = Round.championship := by
    have := List.of_mem_filter hb
    simpa using this
  have hparts := slotOk_parts (hok b hmem)
  exact ⟨b, hmem, hround, (hparts.2.2.2.2.2.2 hround).1⟩

/-! ## Occupancy and fill-count lemmas -/

theorem occList_cons (x : BracketSlot) (l : List BracketSlot) (r : Round) :
    occList (x :: l) r =
      (if (x.round == r) = true then slotOccupants x else []) ++ occList l r := by
  unfold occList
  rw [List.filter_cons]
  by_cases h : (x.round == r) = true
  · rw [if_pos h, if_pos h, List.flatMap_cons]
  · rw [if_neg h, if_neg h, List.nil_append]

theorem updateSlot_no_match {st : List BracketSlot} {id : String}
    (f : BracketSlot → BracketSlot) (h : ∀ x ∈ st, (x.slotId == id) = false) :
    updateSlot st id f = st := by
  unfold updateSlot
  rw [List.map_congr_left fun x hx => ?_, List.map_id']
  rw [h x hx]
  simp

theorem occList_updateSlot_ne_round {st : List BracketSlot} {id : String}
    {f : BracketSlot → BracketSlot} (r'' : Round)
    (hround : ∀ x, (f x).round = x.round)
    (hmatch : ∀ x ∈ st, (x.slotId == id) = true → (x.round == r'') = false) :
    occList (updateSlot st id f) r'' = occList st r'' := by
  induction st with
  | nil => rfl
  | cons a l ih =>
    have hstep : updateSlot (a :: l) id f =
        (if (a.slotId == id) = true then f a else a) :: updateSlot l id f := by
      unfold updateSlot
      rw [List.map_cons]
    rw [hstep, occList_cons, occList_cons,
      ih fun x hx => hmatch x (List.mem_cons_of_mem a hx)]
    congr 1
    by_cases hm : (a.slotId == id) = true
    · have hr := hmatch a (List.mem_cons_self a l) hm
      rw [if_pos hm]
      have hfr : ((f a).round == r'') = (a.round == r'') := by rw [hround]
      rw [hfr, hr]
      rw [if_neg (by simp), if_neg (by simp [hr])]
    · rw [if_neg hm]

theorem occList_updateSlot_count_le (st : List BracketSlot) (id : String)
    (f : BracketSlot → BracketSlot) (r'' : Round) (w t : String)
    (hnd : (st.map fun x => x.slotId).Nodup)
    (hround : ∀ x, (f x).round = x.round)
    (hocc : ∀ x, (slotOccupants (f x)).count t ≤
      (slotOccupants x).count t + (if t = w then 1 else 0)) :
    (occList (updateSlot st id f) r'').count t ≤
      (occList st r'').count t + (if t = w then 1 else 0) := by
  induction st with
  | nil =>
    simp [occList, updateSlot]
  | cons a l ih =>
    rw [List.map_cons, List.nodup_cons] at hnd
    have hstep : updateSlot (a :: l) id f =
        (if (a.slotId == id) = true then f a else a) :: updateSlot l id f := by
      unfold updateSlot
      rw [List.map_cons]
    rw [hstep, occList_cons, occList_cons, List.count_append, List.count_append]
    by_cases hm : (a.slotId == id) = true
    · have hnol : updateSlot l id f = l := by
        apply updateSlot_no_match
        intro x hx
        simp only [beq_eq_false_iff_ne, ne_eq]
        intro hEq
        apply hnd.1
        have hax : a.slotId = id := by simpa using hm
        rw [← hEq] at hax
        rw [hax]
        exact List.mem_map_of_mem _ hx
      rw [hnol, if_pos hm]
      have hfr : ((f a).round == r'') = (a.round == r'') := by rw [hround]
      by_cases har : (a.round == r'') = true
      · rw [hfr, har, if_pos rfl, if_pos rfl]
        have := hocc a
        omega
      · rw [hfr, if_neg har, if_neg har]
        omega
    · rw [if_neg hm]
      have := ih hnd.2
      omega

theorem count_option_toList (o : Option String) (t : String) :
    o.toList.count t = if o = some t then 1 else 0 := by
  cases o with
  | none => simp
  | some v =>
    simp only [Option.toList_some, List.count_singleton, beq_iff_eq, Option.some.injEq]

theorem slotOccupants_withTeam1_count (T : BracketSlot) (w t : String) :
    (slotOccupants (withTeam1 w T)).count t ≤
      (slotOccupants T).count t + (if t = w then 1 else 0) := by
  unfold slotOccupants withTeam1
  dsimp only
  rw [List.count_append, List.count_append, count_option_toList, count_option_toList,
    count_option_toList]
  split_ifs <;> simp_all

theorem slotOccupants_withTeam2_count (T : BracketSlot) (w t : String) :
    (slotOccupants (withTeam2 w T)).count t ≤
      (slotOccupants T).count t + (if t = w then 1 else 0) := by
  unfold slotOccupants withTeam2
  dsimp only
  rw [List.count_append, List.count_append, count_option_toList, count_option_toList,
    count_option_toList]
  split_ifs <;> simp_all

theorem winner_count_le {s : BracketSlot} {w a b : String} (h1 : s.team1Id = some a)
    (h2 : s.team2Id = some b) (hw : w = a ∨ w = b) (t : String) :
    (if t = w then 1 else 0) ≤ (slotOccupants s).count t := by
  unfold slotOccupants
  rw [h1, h2]
  by_cases ht : t = w
  · rw [if_pos ht]
    rcases hw with rfl | rfl
    · subst ht
      simp [List.count_cons]
    · subst ht
      simp [List.count_append, List.count_singleton]
  · rw [if_neg ht]
    exact Nat.zero_le _

theorem fillCount_advance {T : BracketSlot} (w : String) (hlt : fillCount T ≤ 1) :
    fillCount (if T.team1Id.isNone then withTeam1 w T else withTeam2 w T) =
      fillCount T + 1 := by
  cases h1 : T.team1Id <;> cases h2 : T.team2Id <;>
    simp_all [fillCount, withTeam1, withTeam2, h1, h2]

theorem fillCount_two_isSome {T : BracketSlot} (h : fillCount T = 2) :
    T.team1Id.isSome = true ∧ T.team2Id.isSome = true := by
  cases h1 : T.team1Id <;> cases h2 : T.team2Id <;> simp_all [fillCount, h1, h2]

theorem occOf_eq {st : List BracketSlot} {id : String} {s : BracketSlot}
    (hs : getSlot st id = some s) : occOf st id = slotOccupants s := by
  unfold occOf
  rw [hs]

/-! ## The per-game step -/

theorem teamMapGet_roster {teams : List Team} {x : String} (hx : x ∈ rosterIds teams) :
    ∃ tm, teamMapGet teams x = some tm ∧ tm.id = x := by
  unfold rosterIds at hx
  obtain ⟨t, ht, hte⟩ := List.mem_map.mp hx
  have hmem : t ∈ teams.reverse := List.mem_reverse.mpr ht
  have hsome : (teams.reverse.find? fun u => u.id == x).isSome :=
    List.find?_isSome.mpr ⟨t, hmem, by simp [hte]⟩
  obtain ⟨tm, htm⟩ := Option.isSome_iff_exists.mp hsome
  refine ⟨tm, htm, ?_⟩
  have := List.find?_some htm
  simpa using this

theorem bumpRound_apply (rc : String → Round → ℕ) (id : String) (round : Round)
    (t : String) (rr : Round) :
    bumpRound rc id round t rr = rc t rr + (if t = id ∧ rr = round then 1 else 0) := by
  unfold bumpRound
  by_cases h : t = id ∧ rr = round
  · rw [if_pos h, if_pos h]
  · rw [if_neg h, if_neg h, Nat.add_zero]

theorem slotOccupants_count_eq {s : BracketSlot} {a b : String} (h1 : s.team1Id = some a)
    (h2 : s.team2Id = some b) (t : String) :
    (slotOccupants s).count t = (if t = a then 1 else 0) + (if t = b then 1 else 0) := by
  unfold slotOccupants
  rw [h1, h2, List.count_append, count_option_toList, count_option_toList]
  congr 1
  · by_cases h : t = a
    · rw [if_pos h, if_pos (by rw [h])]
    · rw [if_neg h, if_neg (by intro hc; exact h (Option.some_injective _ hc).symm)]
  · by_cases h : t = b
    · rw [if_pos h, if_pos (by rw [h])]
    · rw [if_neg h, if_neg (by intro hc; exact h (Option.some_injective _ hc).symm)]

theorem simGame_spec {σ : Type} (bracket : SerializedBracket) (teams : List Team)
    (mode : SimulationMode σ) (r : Round) (acc : GameAccum σ) (sid : String)
    {s : BracketSlot} {a b : String}
    (hfind : getSlot acc.state sid = some s)
    (h1 : s.team1Id = some a) (h2 : s.team2Id = some b)
    (ha : a ∈ rosterIds teams) (hb : b ∈ rosterIds teams) :
    ∃ w, (w = a ∨ w = b) ∧
      (simGame bracket teams mode r acc sid).state = setWinner acc.state s.slotId w ∧
      (simGame bracket teams mode r acc sid).roundCounts =
        bumpRound (bumpRound acc.roundCounts a r) b r := by
  obtain ⟨ta, hta, htaid⟩ := teamMapGet_roster ha
  obtain ⟨tb, htb, htbid⟩ := teamMapGet_roster hb
  simp only [simGame, hfind, h1, h2, hta, htb]
  refine ⟨_, ?_, rfl, ?_⟩
  · split
    · exact Or.inl htaid
    · exact Or.inr htbid
  · rw [htaid, htbid]

/-! ## The within-round walk

`playGames_spec` relates the fold of `simGame` over a round's ready game ids
to the entry state: every processed slot receives a winner drawn from its two
roster occupants; next-round slots fill one position per processed feeder;
the round-reach counters increase exactly by the entry occupancy of the
processed slots; and next-round occupancy is bounded by the occupants of the
processed slots. -/

theorem playGames_spec {σ : Type} (bracket : SerializedBracket) (teams : List Team)
    (mode : SimulationMode σ) (r r' : Round) (hner : r ≠ r') :
    ∀ (pend : List String) (acc : GameAccum σ),
      (acc.state.map fun x => x.slotId).Nodup →
      pend.Nodup →
      (∀ id ∈ pend, ∃ s, getSlot acc.state id = some s ∧ s.round = r ∧
        (∃ a ∈ rosterIds teams, s.team1Id = some a) ∧
        (∃ b ∈ rosterIds teams, s.team2Id = some b) ∧
        (∃ nid, s.nextSlotId = some nid ∧
          ∃ T, getSlot acc.state nid = some T ∧ T.round = r')) →
      (∀ nid T, getSlot acc.state nid = some T → T.round = r' →
        fillCount T + (pend.filter fun id => feedsInto acc.state id nid).length ≤ 2 ∧
        (∀ v, T.team1Id = some v → v ∈ rosterIds teams) ∧
        (∀ v, T.team2Id = some v → v ∈ rosterIds teams)) →
      ((pend.foldl (simGame bracket teams mode r) acc).state.map skel =
        acc.state.map skel) ∧
      (∀ x xs, x ∉ pend → getSlot acc.state x = some xs → xs.round ≠ r' →
        getSlot (pend.foldl (simGame bracket teams mode r) acc).state x = some xs) ∧
      (∀ id ∈ pend, ∀ s₀, getSlot acc.state id = some s₀ →
        ∃ w, (s₀.team1Id = some w ∨ s₀.team2Id = some w) ∧
          getSlot (pend.foldl (simGame bracket teams mode r) acc).state id =
            some (withWinner w s₀)) ∧
      (∀ nid T, getSlot acc.state nid = some T → T.round = r' →
        ∃ T', getSlot (pend.foldl (simGame bracket teams mode r) acc).state nid = some T' ∧
          skel T' = skel T ∧ T'.winnerId = T.winnerId ∧
          fillCount T' =
            fillCount T + (pend.filter fun id => feedsInto acc.state id nid).length ∧
          (∀ v, T'.team1Id = some v → v ∈ rosterIds teams) ∧
          (∀ v, T'.team2Id = some v → v ∈ rosterIds teams)) ∧
      ((pend.foldl (simGame bracket teams mode r) acc).roundCounts = fun t rr =>
        acc.roundCounts t rr +
          if rr = r then (pend.flatMap (occOf acc.state)).count t else 0) ∧
      (∀ t, (occList (pend.foldl (simGame bracket teams mode r) acc).state r').count t ≤
        (occList acc.state r').count t + (pend.flatMap (occOf acc.state)).count t) := by
  intro pend
  induction pend with
  | nil =>
    intro acc hnd hpnd hmem hfill
    refine ⟨rfl, ?_, ?_, ?_, ?_, ?_⟩
    · intro x xs _ hx _
      exact hx
    · intro id hid
      cases hid
    · intro nid T hT hTr
      exact ⟨T, hT, rfl, rfl, by simp, (hfill nid T hT hTr).2.1, (hfill nid T hT hTr).2.2⟩
    · funext t rr
      simp
    · intro t
      simp
  | cons hid rest ih =>
    intro acc hnd hpnd hmem hfill
    obtain ⟨s, hs, hsr, ⟨a, haR, h1⟩, ⟨b, hbR, h2⟩, nid, hnext, T, hT, hTr⟩ :=
      hmem hid (List.mem_cons_self hid rest)
    have hsid : s.slotId = hid := (getSlot_eq_some hs).2
    have hne : hid ≠ nid := by
      intro hEq
      rw [hEq] at hs
      have hsT : s = T := Option.some_injective _ (hs.symm.trans hT)
      exact hner (by rw [← hsr, hsT, hTr])
    obtain ⟨w, hw, hstate, hcounts⟩ :=
      simGame_spec bracket teams mode r acc hid hs h1 h2 haR hbR
    have hwR : w ∈ rosterIds teams := by
      rcases hw with rfl | rfl
      · exact haR
      · exact hbR
    have hstate' : (simGame bracket teams mode r acc hid).state =
        setWinner acc.state hid w := by
      rw [hstate, hsid]
    -- the head's target slot after the step
    obtain ⟨X, hXd⟩ : ∃ X, X = if T.team1Id.isNone then withTeam1 w T else withTeam2 w T :=
      ⟨_, rfl⟩
    have hget_self : getSlot (simGame bracket teams mode r acc hid).state hid =
        some (withWinner w s) := by
      rw [hstate']
      exact setWinner_getSlot_self_next w hs hnext hne hT
    have hget_target : getSlot (simGame bracket teams mode r acc hid).state nid = some X := by
      rw [hstate', hXd]
      exact setWinner_getSlot_target w hs hnext hne hT
    have hget_other : ∀ x, x ≠ hid → x ≠ nid →
        getSlot (simGame bracket teams mode r acc hid).state x = getSlot acc.state x := by
      intro x hx1 hx2
      rw [hstate']
      exact setWinner_getSlot_other_next w hs hnext hne hT hx1 hx2
    have hskel1 : (simGame bracket teams mode r acc hid).state.map skel =
        acc.state.map skel := by
      rw [hstate']
      exact setWinner_map_skel _ _ _
    have hnd1 : ((simGame bracket teams mode r acc hid).state.map fun x => x.slotId).Nodup := by
      rw [skel_slotId_map hskel1]
      exact hnd
    -- facts about the updated target X
    have hXround : X.round = T.round := by
      rw [hXd]
      by_cases hbr : T.team1Id.isNone <;> simp [hbr, withTeam1, withTeam2]
    have hXskel : skel X = skel T := by
      rw [hXd]
      by_cases hbr : T.team1Id.isNone <;> simp [hbr, withTeam1, withTeam2, skel]
    have hXwinner : X.winnerId = T.winnerId := by
      rw [hXd]
      by_cases hbr : T.team1Id.isNone <;> simp [hbr, withTeam1, withTeam2]
    have hfT := hfill nid T hT hTr
    have hfeedhid : feedsInto acc.state hid nid = true := by
      unfold feedsInto
      rw [hs]
      simp [hnext]
    have hcnt_head : ((hid :: rest).filter fun id => feedsInto acc.state id nid).length =
        (rest.filter fun id => feedsInto acc.state id nid).length + 1 := by
      simp [List.filter_cons, hfeedhid]
    have hfle : fillCount T ≤ 1 := by
      have := hfT.1
      rw [hcnt_head] at this
      omega
    have hfillX : fillCount X = fillCount T + 1 := by
      rw [hXd]
      exact fillCount_advance w hfle
    have hXroster : (∀ v, X.team1Id = some v → v ∈ rosterIds teams) ∧
        (∀ v, X.team2Id = some v → v ∈ rosterIds teams) := by
      rw [hXd]
      by_cases hbr : T.team1Id.isNone
      · rw [if_pos hbr]
        refine ⟨?_, ?_⟩
        · intro v hv
          have : v = w := by simpa [withTeam1] using hv.symm
          rw [this]
          exact hwR
        · intro v hv
          exact hfT.2.2 v (by simpa [withTeam1] using hv)
      · rw [if_neg hbr]
        refine ⟨?_, ?_⟩
        · intro v hv
          exact hfT.2.1 v (by simpa [withTeam2] using hv)
        · intro v hv
          have : v = w := by simpa [withTeam2] using hv.symm
          rw [this]
          exact hwR
    -- tail slots are untouched by the head step
    have hhid_rest : hid ∉ rest := (List.nodup_cons.mp hpnd).1
    have hrest_slots : ∀ id ∈ rest,
        getSlot (simGame bracket teams mode r acc hid).state id = getSlot acc.state id := by
      intro id hidr
      have hidne : id ≠ hid := fun hEq => hhid_rest (hEq ▸ hidr)
      have hidnnid : id ≠ nid := by
        intro hEq
        obtain ⟨s', hs', hsr', _⟩ := hmem id (List.mem_cons_of_mem hid hidr)
        rw [hEq] at hs'
        have hsT : s' = T := Option.some_injective _ (hs'.symm.trans hT)
        exact hner (by rw [← hsr', hsT, hTr])
      exact hget_other id hidne hidnnid
    have hfeeds_rest : ∀ nid', (rest.filter fun id =>
        feedsInto (simGame bracket teams mode r acc hid).state id nid') =
        rest.filter fun id => feedsInto acc.state id nid' := by
      intro nid'
      apply List.filter_congr
      intro id hidr
      unfold feedsInto
      rw [hrest_slots id hidr]
    have hflat_rest : rest.flatMap (occOf (simGame bracket teams mode r acc hid).state) =
        rest.flatMap (occOf acc.state) := by
      rw [List.flatMap_def, List.flatMap_def]
      congr 1
      apply List.map_congr_left
      intro id hidr
      unfold occOf
      rw [hrest_slots id hidr]
    -- induction hypotheses for the tail
    have hmem1 : ∀ id ∈ rest, ∃ s', getSlot (simGame bracket teams mode r acc hid).state id =
        some s' ∧ s'.round = r ∧
        (∃ a ∈ rosterIds teams, s'.team1Id = some a) ∧
        (∃ b ∈ rosterIds teams, s'.team2Id = some b) ∧
        (∃ nid', s'.nextSlotId = some nid' ∧
          ∃ T', getSlot (simGame bracket teams mode r acc hid).state nid' = some T' ∧
            T'.round = r') := by
      intro id hidr
      obtain ⟨s', hs', hsr', hA, hB, nid', hnext', T', hT', hTr'⟩ :=
        hmem id (List.mem_cons_of_mem hid hidr)
      refine ⟨s', by rw [hrest_slots id hidr]; exact hs', hsr', hA, hB, nid', hnext', ?_⟩
      by_cases hq : nid' = nid
      · subst hq
        exact ⟨X, hget_target, by rw [hXround, hTr]⟩
      · have hq2 : nid' ≠ hid := by
          intro hEq
          rw [hEq] at hT'
          have hTs : T' = s := Option.some_injective _ (hT'.symm.trans hs)
          exact hner (by rw [← hsr, ← hTs, hTr'])
        exact ⟨T', by rw [hget_other nid' hq2 hq]; exact hT', hTr'⟩
    have hfill1 : ∀ nid' T₁,
        getSlot (simGame bracket teams mode r acc hid).state nid' = some T₁ → T₁.round = r' →
        fillCount T₁ + (rest.filter fun id =>
          feedsInto (simGame bracket teams mode r acc hid).state id nid').length ≤ 2 ∧
        (∀ v, T₁.team1Id = some v → v ∈ rosterIds teams) ∧
        (∀ v, T₁.team2Id = some v → v ∈ rosterIds teams) := by
      intro nid' T₁ hT₁ hT₁r
      rw [hfeeds_rest nid']
      by_cases hq1 : nid' = hid
      · subst hq1
        rw [hget_self] at hT₁
        have hT₁w : T₁ = withWinner w s := Option.some_injective _ hT₁.symm
        have : T₁.round = s.round := by rw [hT₁w]; rfl
        rw [this, hsr] at hT₁r
        exact absurd hT₁r hner
      · by_cases hq2 : nid' = nid
        · subst hq2
          rw [hget_target] at hT₁
          have hT₁X : T₁ = X := Option.some_injective _ hT₁.symm
          subst hT₁X
          refine ⟨?_, hXroster.1, hXroster.2⟩
          have := hfT.1
          rw [hcnt_head] at this
          rw [hfillX]
          omega
        · rw [hget_other nid' hq1 hq2] at hT₁
          have hold := hfill nid' T₁ hT₁ hT₁r
          refine ⟨?_, hold.2.1, hold.2.2⟩
          have hhd : feedsInto acc.state hid nid' = false := by
            unfold feedsInto
            rw [hs]
            simp only [hnext, Option.some.injEq, beq_iff_eq]
            exact Bool.decide_false fun hEq => hq2 hEq.symm
          have := hold.1
          simpa [List.filter_cons, hhd] using this
    obtain ⟨ihskel, ihC1, ihC2, ihC3, ihC4, ihC5⟩ :=
      ih (simGame bracket teams mode r acc hid) hnd1 (List.nodup_cons.mp hpnd).2 hmem1 hfill1
    simp only [List.foldl_cons]
    refine ⟨ihskel.trans hskel1, ?_, ?_, ?_, ?_, ?_⟩
    · -- untouched slots
      intro x xs hxnp hgx hxr
      have hx1 : x ≠ hid := fun hEq => hxnp (hEq ▸ List.mem_cons_self hid rest)
      have hx2 : x ≠ nid := by
        intro hEq
        rw [hEq] at hgx
        have : xs = T := Option.some_injective _ (hgx.symm.trans hT)
        exact hxr (by rw [this, hTr])
      have hgx1 : getSlot (simGame bracket teams mode r acc hid).state x = some xs := by
        rw [hget_other x hx1 hx2]
        exact hgx
      exact ihC1 x xs (fun hm => hxnp (List.mem_cons_of_mem hid hm)) hgx1 hxr
    · -- processed slots get winners
      intro id hidp s₀ hs₀
      rcases List.mem_cons.mp hidp with rfl | hidr
      · have hs₀s : s₀ = s := Option.some_injective _ (hs₀.symm.trans hs)
        subst hs₀s
        refine ⟨w, ?_, ?_⟩
        · rcases hw with rfl | rfl
          · exact Or.inl h1
          · exact Or.inr h2
        · have hround : (withWinner w s₀).round ≠ r' := by
            have : (withWinner w s₀).round = s₀.round := rfl
            rw [this, hsr]
            exact hner
          exact ihC1 id (withWinner w s₀) hhid_rest hget_self hround
      · have hs₀1 : getSlot (simGame bracket teams mode r acc hid).state id = some s₀ := by
          rw [hrest_slots id hidr]
          exact hs₀
        exact ihC2 id hidr s₀ hs₀1
    · -- next-round fill accounting
      intro nid₀ T₀ hT₀ hT₀r
      by_cases hq : nid₀ = nid
      · subst hq
        have hTT : T₀ = T := Option.some_injective _ (hT₀.symm.trans hT)
        have hT₀r₂ : T.round = r' := by rw [← hTT]; exact hT₀r
        obtain ⟨T', hg', hsk', hwin', hfc', hr1', hr2'⟩ :=
          ihC3 nid₀ X hget_target (by rw [hXround]; exact hT₀r₂)
        refine ⟨T', hg', hsk'.trans (hXskel.trans (by rw [hTT])), ?_, ?_, hr1', hr2'⟩
        · rw [hwin', hXwinner, hTT]
        · rw [hfc', hfillX, hfeeds_rest nid₀, hcnt_head, hTT]
          omega
      · have hq2 : nid₀ ≠ hid := by
          intro hEq
          rw [hEq] at hT₀
          have hT₀s : T₀ = s := Option.some_injective _ (hT₀.symm.trans hs)
          exact hner (by rw [← hsr, ← hT₀s, hT₀r])
        have hT₀1 : getSlot (simGame bracket teams mode r acc hid).state nid₀ = some T₀ := by
          rw [hget_other nid₀ hq2 hq]
          exact hT₀
        obtain ⟨T', hg', hsk', hwin', hfc', hr1', hr2'⟩ := ihC3 nid₀ T₀ hT₀1 hT₀r
        refine ⟨T', hg', hsk', hwin', ?_, hr1', hr2'⟩
        rw [hfc', hfeeds_rest nid₀]
        have hhd : feedsInto acc.state hid nid₀ = false := by
          unfold feedsInto
          rw [hs]
          simp only [hnext, Option.some.injEq, beq_iff_eq]
          exact Bool.decide_false fun hEq => hq hEq.symm
        simp [List.filter_cons, hhd]
    · -- round counters
      rw [ihC4, hcounts]
      funext t rr
      rw [hflat_rest, List.flatMap_cons, List.count_append,
        bumpRound_apply, bumpRound_apply, occOf_eq hs, slotOccupants_count_eq h1 h2]
      by_cases hrr : rr = r
      · subst hrr
        simp only [if_pos rfl, and_true]
        split_ifs <;> omega
      · simp [hrr]
    · -- next-round occupancy bound
      intro t
      have hstep : (occList (simGame bracket teams mode r acc hid).state r').count t ≤
          (occList acc.state r').count t + (if t = w then 1 else 0) := by
        rw [hstate', setWinner_eq_next w hs hnext hne hT]
        have hinner : occList (updateSlot acc.state hid (withWinner w)) r' =
            occList acc.state r' := by
          apply occList_updateSlot_ne_round r'
            (fun x => (rfl : (withWinner w x).round = x.round))
          intro x hx hxid
          have hxid' : x.slotId = hid := by simpa using hxid
          have hxfind := getSlot_of_mem_nodup hnd hx
          rw [hxid'] at hxfind
          have hxs : x = s := Option.some_injective _ (hxfind.symm.trans hs)
          rw [hxs, hsr]
          simp [hner]
        have hnd_up : ((updateSlot acc.state hid (withWinner w)).map fun x => x.slotId).Nodup := by
          have := updateSlot_map_skel acc.state hid (withWinner w) fun _ => rfl
          rw [skel_slotId_map this]
          exact hnd
        by_cases hbr : T.team1Id.isNone
        · rw [if_pos hbr]
          have := occList_updateSlot_count_le
            (updateSlot acc.state hid (withWinner w)) nid (withTeam1 w) r' w t hnd_up
            (fun x => rfl) (fun x => slotOccupants_withTeam1_count x w t)
          rw [hinner] at this
          exact this
        · rw [if_neg hbr]
          have := occList_updateSlot_count_le
            (updateSlot acc.state hid (withWinner w)) nid (withTeam2 w) r' w t hnd_up
            (fun x => rfl) (fun x => slotOccupants_withTeam2_count x w t)
          rw [hinner] at this
          exact this
      have hih := ihC5 t
      rw [hflat_rest] at hih
      have hwle : (if t = w then 1 else 0) ≤ (occOf acc.state hid).count t := by
        rw [occOf_eq hs]
        exact winner_count_le h1 h2 hw t
      rw [List.flatMap_cons, List.count_append]
      omega

/-! ## Ready-game characterisation at a round entry -/

theorem getReadyGamesForRound_of_entry {teams : List Team} {st : List BracketSlot} {r : Round}
    (hentry : roundEntry teams st r) :
    getReadyGamesForRound st r = st.filter fun s => s.round == r := by
  unfold getReadyGamesForRound
  apply List.filter_eq_self.mpr
  intro s hs
  have hsr : s.round = r := by simpa using List.of_mem_filter hs
  obtain ⟨⟨a, _, h1⟩, ⟨b, _, h2⟩, h3⟩ := hentry.1 s (List.mem_of_mem_filter hs) hsr
  simp [slotReady, h1, h2, h3]

theorem roundIds_nodup {st : List BracketSlot} (r : Round)
    (hnd : (st.map fun s => s.slotId).Nodup) :
    ((st.filter fun s => s.round == r).map fun s => s.slotId).Nodup := by
  have hsub : (st.filter fun s => s.round == r).Sublist st := List.filter_sublist st
  exact List.Nodup.sublist (List.Sublist.map _ hsub) hnd

theorem flatMap_occOf_eq_occList {st : List BracketSlot} (r : Round)
    (hnd : (st.map fun s => s.slotId).Nodup) :
    (((st.filter fun s => s.round == r).map fun s => s.slotId).flatMap (occOf st)) =
      occList st r := by
  unfold occList
  rw [List.flatMap_def, List.flatMap_def, List.map_map]
  congr 1
  apply List.map_congr_left
  intro s hs
  have hmem : s ∈ st := List.mem_of_mem_filter hs
  show occOf st s.slotId = slotOccupants s
  exact occOf_eq (getSlot_of_mem_nodup hnd hmem)

theorem filter_feeds_length {st : List BracketSlot} (r : Round) (nid : String)
    (hnd : (st.map fun s => s.slotId).Nodup) :
    (((st.filter fun s => s.round == r).map fun s => s.slotId).filter fun id =>
      feedsInto st id nid).length = feederCount st r nid := by
  rw [List.filter_map, List.length_map]
  unfold feederCount
  rw [← List.countP_eq_length_filter, ← List.countP_eq_length_filter, List.countP_filter]
  apply List.countP_congr
  intro s hs
  have hfeeds : feedsInto st s.slotId nid = (s.nextSlotId == some nid) := by
    unfold feedsInto
    rw [getSlot_of_mem_nodup hnd hs]
  simp [Function.comp, hfeeds, Bool.and_comm]

theorem occList_count_zero {st : List BracketSlot} {r : Round}
    (h : ∀ s ∈ st, s.round = r → s.team1Id = none ∧ s.team2Id = none) (t : String) :
    (occList st r).count t = 0 := by
  unfold occList
  have hocc : ∀ s ∈ st.filter fun s => s.round == r, slotOccupants s = ([] : List String) := by
    intro s hs
    have hsr : s.round = r := by simpa using List.of_mem_filter hs
    obtain ⟨h1, h2⟩ := h s (List.mem_of_mem_filter hs) hsr
    simp [slotOccupants, h1, h2]
  rw [List.flatMap_def, List.map_congr_left hocc]
  simp

/-! ## One round of a Monte Carlo run

`simRound_spec` packages the round walk for a round with a successor round:
starting from a state whose round-`r` slots are all ready with roster
occupants and whose later rounds are empty, the round leaves the skeleton
unchanged, establishes the entry condition for the next round, bumps the
round-reach counters by exactly the entry occupancy of round `r`, and the
next round's occupancy is bounded by round `r`'s. -/

theorem simRound_spec {σ : Type} {bracket : SerializedBracket} {teams : List Team}
    (mode : SimulationMode σ) {r r' : Round} (hrr : nextRound r = some r')
    (hwf : wellFormed bracket teams) (acc : GameAccum σ)
    (hskel : acc.state.map skel = bracket.slots.map skel)
    (hentry : roundEntry teams acc.state r) :
    (simRound bracket teams mode acc r).state.map skel = bracket.slots.map skel ∧
    roundEntry teams (simRound bracket teams mode acc r).state r' ∧
    ((simRound bracket teams mode acc r).roundCounts = fun t rr =>
      acc.roundCounts t rr + if rr = r then (occList acc.state r).count t else 0) ∧
    (∀ t, (occList (simRound bracket teams mode acc r).state r').count t ≤
      (occList acc.state r).count t) := by
  obtain ⟨hnd, hnexts, hfeeders, hchampname⟩ := statics_transport hwf hskel
  have hner : r ≠ r' := nextRound_ne hrr
  have hlt : ROUND_INDEX r < ROUND_INDEX r' := nextRound_lt hrr
  have hpend : getReadyGamesForRound acc.state r = acc.state.filter fun s => s.round == r :=
    getReadyGamesForRound_of_entry hentry
  have hpndnd := roundIds_nodup r hnd
  have hmemH : ∀ id ∈ (acc.state.filter fun s => s.round == r).map fun s => s.slotId,
      ∃ s, getSlot acc.state id = some s ∧ s.round = r ∧
        (∃ a ∈ rosterIds teams, s.team1Id = some a) ∧
        (∃ b ∈ rosterIds teams, s.team2Id = some b) ∧
        (∃ nid, s.nextSlotId = some nid ∧
          ∃ T, getSlot acc.state nid = some T ∧ T.round = r') := by
    intro id hid
    obtain ⟨s, hsf, hsid⟩ := List.mem_map.mp hid
    have hsmem : s ∈ acc.state := List.mem_of_mem_filter hsf
    have hsr : s.round = r := by simpa using List.of_mem_filter hsf
    obtain ⟨hA, hB, _⟩ := hentry.1 s hsmem hsr
    obtain ⟨nid, hnid, T, hT, hTr⟩ := hnexts r r' hrr s hsmem hsr
    refine ⟨s, ?_, hsr, hA, hB, nid, hnid, T, hT, hTr⟩
    rw [← hsid]
    exact getSlot_of_mem_nodup hnd hsmem
  have hfillH : ∀ nid T, getSlot acc.state nid = some T → T.round = r' →
      fillCount T + (((acc.state.filter fun s => s.round == r).map fun s => s.slotId).filter
        fun id => feedsInto acc.state id nid).length ≤ 2 ∧
      (∀ v, T.team1Id = some v → v ∈ rosterIds teams) ∧
      (∀ v, T.team2Id = some v → v ∈ rosterIds teams) := by
    intro nid T hT hTr
    obtain ⟨hTmem, hTid⟩ := getSlot_eq_some hT
    obtain ⟨hT1, hT2, _⟩ := hentry.2 T hTmem (by rw [hTr]; exact hlt)
    refine ⟨?_, ?_, ?_⟩
    · rw [filter_feeds_length r nid hnd]
      have hfc : feederCount acc.state r nid = 2 := by
        have := hfeeders r r' hrr T hTmem hTr
        rw [hTid] at this
        exact this
      rw [hfc]
      simp [fillCount, hT1, hT2]
    · intro v hv
      rw [hT1] at hv
      cases hv
    · intro v hv
      rw [hT2] at hv
      cases hv
  obtain ⟨pgSkel, pgOther, pgWin, pgFill, pgCounts, pgOcc⟩ :=
    playGames_spec bracket teams mode r r' hner
      ((acc.state.filter fun s => s.round == r).map fun s => s.slotId) acc
      hnd hpndnd hmemH hfillH
  have hres : simRound bracket teams mode acc r =
      ((acc.state.filter fun s => s.round == r).map fun s => s.slotId).foldl
        (simGame bracket teams mode r) acc := by
    unfold simRound
    rw [hpend]
  rw [hres]
  have hndres : ((((acc.state.filter fun s => s.round == r).map fun s => s.slotId).foldl
      (simGame bracket teams mode r) acc).state.map fun x => x.slotId).Nodup := by
    rw [skel_slotId_map pgSkel]
    exact hnd
  refine ⟨pgSkel.trans hskel, ⟨?_, ?_⟩, ?_, ?_⟩
  · -- every round-r' slot of the result is ready with roster occupants
    intro s hs hsr'
    obtain ⟨T, hTmem, hTsk⟩ := skel_mem_exists pgSkel hs
    obtain ⟨hTid, hTr, _⟩ := skel_eq_parts hTsk
    have hTgs : getSlot acc.state s.slotId = some T := by
      have := getSlot_of_mem_nodup hnd hTmem
      rw [hTid] at this
      exact this
    have hTround : T.round = r' := by rw [hTr, hsr']
    obtain ⟨hT1, hT2, hTw⟩ := hentry.2 T hTmem (by rw [hTround]; exact hlt)
    obtain ⟨T', hgT', hskT', hwinT', hfcT', hr1T', hr2T'⟩ := pgFill s.slotId T hTgs hTround
    have hgs := getSlot_of_mem_nodup hndres hs
    have hT's : T' = s := Option.some_injective _ (hgT'.symm.trans hgs)
    rw [hT's] at hwinT' hfcT' hr1T' hr2T'
    have hfeeds2 : feederCount acc.state r s.slotId = 2 := by
      have := hfeeders r r' hrr T hTmem hTround
      rw [hTid] at this
      exact this
    have hfc2 : fillCount s = 2 := by
      rw [hfcT', filter_feeds_length r s.slotId hnd, hfeeds2]
      simp [fillCount, hT1, hT2]
    obtain ⟨hs1, hs2⟩ := fillCount_two_isSome hfc2
    obtain ⟨a, ha⟩ := Option.isSome_iff_exists.mp hs1
    obtain ⟨b, hb⟩ := Option.isSome_iff_exists.mp hs2
    refine ⟨⟨a, hr1T' a ha, ha⟩, ⟨b, hr2T' b hb, hb⟩, ?_⟩
    rw [hwinT', hTw]
  · -- rounds after r' are still empty
    intro s hs hlt'
    obtain ⟨xs, hxsmem, hxssk⟩ := skel_mem_exists pgSkel hs
    obtain ⟨hxid, hxr, _⟩ := skel_eq_parts hxssk
    have hxempty := hentry.2 xs hxsmem (by rw [hxr]; exact lt_trans hlt hlt')
    have hxner : xs.round ≠ r' := by
      rw [hxr]
      intro hEq
      rw [hEq] at hlt'
      exact lt_irrefl _ hlt'
    have hxgs : getSlot acc.state s.slotId = some xs := by
      have := getSlot_of_mem_nodup hnd hxsmem
      rw [hxid] at this
      exact this
    have hnp : s.slotId ∉ (acc.state.filter fun x => x.round == r).map fun x => x.slotId := by
      intro hin
      obtain ⟨y, hyf, hyid⟩ := List.mem_map.mp hin
      have hymem : y ∈ acc.state := List.mem_of_mem_filter hyf
      have hyr : y.round = r := by simpa using List.of_mem_filter hyf
      have h1 := getSlot_of_mem_nodup hnd hymem
      rw [hyid] at h1
      have hyxs : y = xs := Option.some_injective _ (h1.symm.trans hxgs)
      rw [hyxs, hxr] at hyr
      rw [hyr] at hlt'
      exact absurd (lt_trans hlt hlt') (lt_irrefl _)
    have hgres := pgOther s.slotId xs hnp hxgs hxner
    have hgs := getSlot_of_mem_nodup hndres hs
    have hsx : s = xs := Option.some_injective _ (hgs.symm.trans hgres)
    rw [hsx]
    exact hxempty
  · -- round-reach counters
    rw [pgCounts]
    funext t rr
    rw [flatMap_occOf_eq_occList r hnd]
  · -- next-round occupancy bound
    intro t
    have hb := pgOcc t
    rw [flatMap_occOf_eq_occList r hnd] at hb
    have hzero := occList_count_zero (fun s hs hsr =>
      ⟨(hentry.2 s hs (by rw [hsr]; exact hlt)).1,
       (hentry.2 s hs (by rw [hsr]; exact hlt)).2.1⟩) t
    rw [hzero] at hb
    simpa using hb

/-! ## The championship round

The final round has exactly one slot, named `"championship"`, with no next
slot: playing it sets the champion (one of the slot's two roster occupants)
and bumps both occupants' championship-round reach counters. -/

theorem simRound_championship_spec {σ : Type} {bracket : SerializedBracket} {teams : List Team}
    (mode : SimulationMode σ) (hwf : wellFormed bracket teams) (acc : GameAccum σ)
    (hskel : acc.state.map skel = bracket.slots.map skel)
    (hentry : roundEntry teams acc.state Round.championship) :
    (∃ c ∈ rosterIds teams,
      getChampion (simRound bracket teams mode acc Round.championship).state = some c) ∧
    ((simRound bracket teams mode acc Round.championship).roundCounts = fun t rr =>
      acc.roundCounts t rr +
        if rr = Round.championship then (occList acc.state Round.championship).count t
        else 0) := by
  obtain ⟨hnd, _, _, hchampname⟩ := statics_transport hwf hskel
  have hlen : (acc.state.filter fun s => s.round == Round.championship).length = 1 := by
    rw [← List.countP_eq_length_filter]
    have hc : ∀ l : List BracketSlot,
        l.countP (fun s => s.round == Round.championship) =
          (l.map skel).countP fun q => q.2.1 == Round.championship := by
      intro l
      rw [List.countP_map]
      rfl
    rw [hc, hskel, ← hc, List.countP_eq_length_filter]
    exact hwf.2.2.2
  obtain ⟨c0, hc0⟩ := List.length_eq_one.mp hlen
  have hc0f : c0 ∈ acc.state.filter fun s => s.round == Round.championship := by
    rw [hc0]
    exact List.mem_singleton_self c0
  have hc0mem : c0 ∈ acc.state := List.mem_of_mem_filter hc0f
  have hc0r : c0.round = Round.championship := by simpa using List.of_mem_filter hc0f
  obtain ⟨hc0id, hc0next⟩ := hchampname c0 hc0mem hc0r
  obtain ⟨⟨a, haR, h1⟩, ⟨b, hbR, h2⟩, hwin⟩ := hentry.1 c0 hc0mem hc0r
  have hgc0 : getSlot acc.state c0.slotId = some c0 := getSlot_of_mem_nodup hnd hc0mem
  have hres : simRound bracket teams mode acc Round.championship =
      simGame bracket teams mode Round.championship acc c0.slotId := by
    unfold simRound
    rw [getReadyGamesForRound_of_entry hentry, hc0]
    rfl
  obtain ⟨w, hw, hstate, hcounts⟩ :=
    simGame_spec bracket teams mode Round.championship acc c0.slotId hgc0 h1 h2 haR hbR
  have hwR : w ∈ rosterIds teams := by
    rcases hw with rfl | rfl
    · exact haR
    · exact hbR
  have hoccl : occList acc.state Round.championship = slotOccupants c0 := by
    unfold occList
    rw [hc0]
    simp
  rw [hres]
  refine ⟨⟨w, hwR, ?_⟩, ?_⟩
  · rw [hstate, setWinner_eq_noNext w hgc0 hc0next]
    unfold getChampion
    rw [← hc0id,
      getSlot_updateSlot_self acc.state c0.slotId (withWinner w) (fun _ => rfl) hgc0]
    rfl
  · rw [hcounts]
    funext t rr
    rw [bumpRound_apply, bumpRound_apply, hoccl, slotOccupants_count_eq h1 h2]
    by_cases hrr : rr = Round.championship
    · subst hrr
      simp only [if_pos rfl, and_true]
      split_ifs <;> omega
    · simp [hrr]

/-! ## A full Monte Carlo run -/

theorem roundEntry_init {bracket : SerializedBracket} {teams : List Team}
    (hwf : wellFormed bracket teams) :
    roundEntry teams bracket.slots Round.roundOf64 := by
  obtain ⟨_, _, hok, _⟩ := hwf
  constructor
  · intro s hs hsr
    have hparts := slotOk_parts (hok s hs)
    obtain ⟨hA, hB⟩ := hparts.2.1 hsr
    exact ⟨hA, hB, hparts.2.2.2.1⟩
  · intro s hs hlt
    have hparts := slotOk_parts (hok s hs)
    have hne64 : s.round ≠ Round.roundOf64 := by
      intro hEq
      rw [hEq] at hlt
      exact lt_irrefl _ hlt
    obtain ⟨h1, h2⟩ := hparts.2.2.1 hne64
    exact ⟨h1, h2, hparts.2.2.2.1⟩

/-- The round walk of one run: the round-reach counters increase by a
per-round amount that is monotone non-increasing along the round order, and
the run ends with a champion drawn from the roster. -/
theorem runRounds_spec {σ : Type} {bracket : SerializedBracket} {teams : List Team}
    (mode : SimulationMode σ) (hwf : wellFormed bracket teams) (ga0 : GameAccum σ)
    (hst : ga0.state = bracket.slots) :
    ∃ n : Round → String → ℕ,
      (∀ t r₁ r₂, nextRound r₁ = some r₂ → n r₂ t ≤ n r₁ t) ∧
      ((ROUNDS_IN_ORDER.foldl (simRound bracket teams mode) ga0).roundCounts = fun t rr =>
        ga0.roundCounts t rr + n rr t) ∧
      (∃ c ∈ rosterIds teams,
        getChampion (ROUNDS_IN_ORDER.foldl (simRound bracket teams mode) ga0).state =
          some c) := by
  have hskel0 : ga0.state.map skel = bracket.slots.map skel := by rw [hst]
  have hentry0 : roundEntry teams ga0.state Round.roundOf64 := by
    rw [hst]
    exact roundEntry_init hwf
  obtain ⟨sk1, en1, rc1, oc1⟩ :=
    simRound_spec mode (rfl : nextRound Round.roundOf64 = some Round.roundOf32)
      hwf ga0 hskel0 hentry0
  obtain ⟨ga1, hga1⟩ : ∃ x, simRound bracket teams mode ga0 Round.roundOf64 = x := ⟨_, rfl⟩
  rw [hga1] at sk1 en1 rc1 oc1
  obtain ⟨sk2, en2, rc2, oc2⟩ :=
    simRound_spec mode (rfl : nextRound Round.roundOf32 = some Round.sweetSixteen)
      hwf ga1 sk1 en1
  obtain ⟨ga2, hga2⟩ : ∃ x, simRound bracket teams mode ga1 Round.roundOf32 = x := ⟨_, rfl⟩
  rw [hga2] at sk2 en2 rc2 oc2
  obtain ⟨sk3, en3, rc3, oc3⟩ :=
    simRound_spec mode (rfl : nextRound Round.sweetSixteen = some Round.eliteEight)
      hwf ga2 sk2 en2
  obtain ⟨ga3, hga3⟩ : ∃ x, simRound bracket teams mode ga2 Round.sweetSixteen = x := ⟨_, rfl⟩
  rw [hga3] at sk3 en3 rc3 oc3
  obtain ⟨sk4, en4, rc4, oc4⟩ :=
    simRound_spec mode (rfl : nextRound Round.eliteEight = some Round.finalFour)
      hwf ga3 sk3 en3
  obtain ⟨ga4, hga4⟩ : ∃ x, simRound bracket teams mode ga3 Round.eliteEight = x := ⟨_, rfl⟩
  rw [hga4] at sk4 en4 rc4 oc4
  obtain ⟨sk5, en5, rc5, oc5⟩ :=
    simRound_spec mode (rfl : nextRound Round.finalFour = some Round.championship)
      hwf ga4 sk4 en4
  obtain ⟨ga5, hga5⟩ : ∃ x, simRound bracket teams mode ga4 Round.finalFour = x := ⟨_, rfl⟩
  rw [hga5] at sk5 en5 rc5 oc5
  obtain ⟨⟨c, hcR, hchamp⟩, rc6⟩ := simRound_championship_spec mode hwf ga5 sk5 en5
  have hfold : ROUNDS_IN_ORDER.foldl (simRound bracket teams mode) ga0 =
      simRound bracket teams mode ga5 Round.championship := by
    simp only [ROUNDS_IN_ORDER, List.foldl_cons, List.foldl_nil, hga1, hga2, hga3, hga4, hga5]
  refine ⟨fun rr t =>
    if rr = Round.roundOf64 then (occList ga0.state Round.roundOf64).count t
    else if rr = Round.roundOf32 then (occList ga1.state Round.roundOf32).count t
    else if rr = Round.sweetSixteen then (occList ga2.state Round.sweetSixteen).count t
    else if rr = Round.eliteEight then (occList ga3.state Round.eliteEight).count t
    else if rr = Round.finalFour then (occList ga4.state Round.finalFour).count t
    else if rr = Round.championship then (occList ga5.state Round.championship).count t
    else 0, ?_, ?_, ?_⟩
  · intro t r₁ r₂ hnr
    cases r₁
    case firstFour => simp [nextRound] at hnr
    case roundOf64 =>
      simp only [nextRound, Option.some.injEq] at hnr
      subst hnr
      simpa using oc1 t
    case roundOf32 =>
      simp only [nextRound, Option.some.injEq] at hnr
      subst hnr
      simpa using oc2 t
    case sweetSixteen =>
      simp only [nextRound, Option.some.injEq] at hnr
      subst hnr
      simpa using oc3 t
    case eliteEight =>
      simp only [nextRound, Option.some.injEq] at hnr
      subst hnr
      simpa using oc4 t
    case finalFour =>
      simp only [nextRound, Option.some.injEq] at hnr
      subst hnr
      simpa using oc5 t
    case championship => simp [nextRound] at hnr
  · rw [hfold]
    simp only [rc6, rc5, rc4, rc3, rc2, rc1]
    funext t rr
    cases rr <;> simp
  · rw [hfold]
    exact ⟨c, hcR, hchamp⟩

/-- One iteration of the Monte Carlo loop: the championship counts receive
exactly one bump, for a roster team, and the round-reach counters grow by a
per-round amount that is monotone non-increasing along the round order. -/
theorem simStep_spec {σ : Type} {bracket : SerializedBracket} {teams : List Team}
    (mode : SimulationMode σ) (baseSeed : Option ℤ) (now : ℤ)
    (hwf : wellFormed bracket teams) (acc : SimAccum σ) (sim : ℕ) :
    (∃ c ∈ rosterIds teams,
      (simStep bracket teams mode baseSeed now acc sim).championshipCounts =
        bumpChampionship acc.championshipCounts c) ∧
    (∃ n : Round → String → ℕ,
      (∀ t r₁ r₂, nextRound r₁ = some r₂ → n r₂ t ≤ n r₁ t) ∧
      ((simStep bracket teams mode baseSeed now acc sim).roundCounts = fun t rr =>
        acc.roundCounts t rr + n rr t)) := by
  obtain ⟨n, hmono, hrc, c, hcR, hchamp⟩ :=
    runRounds_spec mode hwf
      { state := bracket.slots
        rng := createRng (match baseSeed with | some s => s + (sim : ℤ) | none => now + (sim : ℤ))
        gamesPlayed := fun _ => none
        roundCounts := acc.roundCounts
        modeState := acc.modeState } rfl
  constructor
  · refine ⟨c, hcR, ?_⟩
    simp only [simStep]
    rw [hchamp]
  · refine ⟨n, hmono, ?_⟩
    simp only [simStep]
    rw [hrc]

theorem champSum_foldl {σ : Type} {bracket : SerializedBracket} {teams : List Team}
    (mode : SimulationMode σ) (baseSeed : Option ℤ) (now : ℤ)
    (hwf : wellFormed bracket teams) :
    ∀ (l : List ℕ) (acc : SimAccum σ),
      (teams.map fun t =>
        (recordGet (l.foldl (simStep bracket teams mode baseSeed now) acc).championshipCounts
          t.id).getD 0).sum =
      (teams.map fun t => (recordGet acc.championshipCounts t.id).getD 0).sum + l.length := by
  intro l
  induction l with
  | nil =>
    intro acc
    simp
  | cons s ls ih =>
    intro acc
    rw [List.foldl_cons]
    obtain ⟨c, hcR, hcc⟩ := (simStep_spec mode baseSeed now hwf acc s).1
    rw [ih]
    have hsum : (teams.map fun t =>
        (recordGet (simStep bracket teams mode baseSeed now acc s).championshipCounts
          t.id).getD 0).sum =
        (teams.map fun t => (recordGet acc.championshipCounts t.id).getD 0).sum + 1 := by
      simp only [hcc]
      exact sum_bumpChampionship teams acc.championshipCounts c hcR hwf.2.1
    rw [hsum, List.length_cons]
    omega

theorem roundCounts_mono_foldl {σ : Type} {bracket : SerializedBracket} {teams : List Team}
    (mode : SimulationMode σ) (baseSeed : Option ℤ) (now : ℤ)
    (hwf : wellFormed bracket teams) (t : String) {r₁ r₂ : Round}
    (hadj : nextRound r₁ = some r₂) :
    ∀ (l : List ℕ) (acc : SimAccum σ),
      acc.roundCounts t r₂ ≤ acc.roundCounts t r₁ →
      (l.foldl (simStep bracket teams mode baseSeed now) acc).roundCounts t r₂ ≤
        (l.foldl (simStep bracket teams mode baseSeed now) acc).roundCounts t r₁ := by
  intro l
  induction l with
  | nil =>
    intro acc h
    simpa using h
  | cons s ls ih =>
    intro acc h
    rw [List.foldl_cons]
    apply ih
    obtain ⟨n, hmono, hrc⟩ := (simStep_spec mode baseSeed now hwf acc s).2
    simp only [hrc]
    exact Nat.add_le_add h (hmono t r₁ r₂ hadj)

/-- C2 (championship sum): for every well-formed 64-team bracket whose slot
team references all resolve in the roster, `simulateFullBracket` over `N`
Monte Carlo runs produces championship counts that sum to exactly `N` over
the roster — every run records exactly one champion. -/
theorem C2_championship_counts_sum {σ : Type} (bracket : SerializedBracket)
    (teams : List Team) (mode : SimulationMode σ) (N : ℕ) (baseSeed : Option ℤ) (now : ℤ)
    (hwf : wellFormed bracket teams) :
    (teams.map fun t =>
      (recordGet (simulateFullBracket bracket teams mode N baseSeed now).championshipCounts
        t.id).getD 0).sum = N := by
  simp only [simulateFullBracket]
  rw [champSum_foldl mode baseSeed now hwf]
  rw [sum_recordGet_init teams, List.length_range, Nat.zero_add]

/-- C3 (monotone round reach): for every team `t` and every pair of adjacent
rounds `r₁ < r₂` of the round order, the round-reach counts accumulated by
`simulateFullBracket` satisfy `count(t, r₂) ≤ count(t, r₁)`, for every
well-formed input and any simulation count. -/
theorem C3_round_counts_monotone {σ : Type} (bracket : SerializedBracket) (teams : List Team)
    (mode : SimulationMode σ) (N : ℕ) (baseSeed : Option ℤ) (now : ℤ)
    (hwf : wellFormed bracket teams) (t : String) {r₁ r₂ : Round}
    (hadj : nextRound r₁ = some r₂) :
    (simulateFullBracket bracket teams mode N baseSeed now).roundCounts t r₂ ≤
      (simulateFullBracket bracket teams mode N baseSeed now).roundCounts t r₁ := by
  simp only [simulateFullBracket]
  exact roundCounts_mono_foldl mode baseSeed now hwf t hadj (List.range N) _ (le_refl 0)

set_option maxRecDepth 100000 in
set_option maxHeartbeats 4000000 in
/-- Witness for C2 at the concrete 64-team bracket: 5 runs of the
statistically-validated research mode yield championship counts summing
to 5. -/
theorem C2_witness :
    (teams64.map fun t =>
      (recordGet (simulateFullBracket bracket64 teams64 svResearchMode 5 (some 0)
        0).championshipCounts t.id).getD 0).sum = 5 :=
  C2_championship_counts_sum bracket64 teams64 svResearchMode 5 (some 0) 0 (by decide)

set_option maxRecDepth 100000 in
set_option maxHeartbeats 4000000 in
/-- Witness for C3 at the concrete 64-team bracket: a team's round-of-32
reach count never exceeds its round-of-64 reach count. -/
theorem C3_witness :
    (simulateFullBracket bracket64 teams64 svResearchMode 5 (some 0) 0).roundCounts
      "east-1" Round.roundOf32 ≤
    (simulateFullBracket bracket64 teams64 svResearchMode 5 (some 0) 0).roundCounts
      "east-1" Round.roundOf64 :=
  C3_round_counts_monotone bracket64 teams64 svResearchMode 5 (some 0) 0 (by decide)
    "east-1" rfl

end Madness
